import Mathlib

/-!
Shallow embedding of the crash-diagnostics core: the script parser with its
defaults resolver (src/unnamed/part_000, package parser) and the executor
(src/exec/executor.go).  The `script` package (command constructors, the
directive capability table, `flatCmd`, `CliRun`) is not under src/, so those
parts are modelled from the spec; every such definition is marked
"Modelled from the spec".  External OS facts (the user database, subprocess
execution, write failures, the file trees walked by COPY) are parameters of
the execution environment.
-/

namespace Flare

/-! ## String and path helpers (models of Go standard library calls).
All string operations are implemented structurally over the character list
so that every definition evaluates inside the kernel. -/

/-- Split a character list at every separator occurrence (model of Go
`strings.Split` on a one-byte separator, and of `String.splitOn`). -/
def splitCharAux (sep : Char) : List Char → List Char → List String
  | [], cur => [String.mk cur.reverse]
  | c :: rest, cur =>
    if c = sep then String.mk cur.reverse :: splitCharAux sep rest []
    else splitCharAux sep rest (c :: cur)

/-- Split a character list at every character satisfying `p`. -/
def splitByAux (p : Char → Bool) : List Char → List Char → List String
  | [], cur => [String.mk cur.reverse]
  | c :: rest, cur =>
    if p c then String.mk cur.reverse :: splitByAux p rest []
    else splitByAux p rest (c :: cur)

/-- Whether the first character list is an initial run of the second. -/
def charsLead : List Char → List Char → Bool
  | [], _ => true
  | _ :: _, [] => false
  | a :: as', b :: bs => a == b && charsLead as' bs

/-- Model of Go `strings.HasPrefix s pre` / `String.startsWith`. -/
def strStarts (s pre : String) : Bool := charsLead pre.toList s.toList

/-- Model of Go `strings.TrimSpace`: strip leading and trailing whitespace. -/
def trimChars (s : String) : String :=
  String.mk (((s.toList.dropWhile Char.isWhitespace).reverse.dropWhile Char.isWhitespace).reverse)

/-- Join path components with the separator (model of
`strings.Join(parts, "/")`). -/
def joinParts : List String → String
  | [] => ""
  | [p] => p
  | p :: rest => p ++ "/" ++ joinParts rest

/-- Model of splitting a raw argument string on whitespace, dropping empty
fields (Go `strings.Fields`-like behaviour used by the missing command
constructors).  Modelled from the spec: splitting a raw argument string into
tokens. -/
def wsSplit (s : String) : List String :=
  (splitByAux Char.isWhitespace s.toList []).filter (fun t => t != "")

/-- Split a path string on the separator byte, model of walking the
components of a slash-separated path. -/
def splitPath (p : String) : List String := splitCharAux '/' p.toList []

/-- Model of Go `path/filepath.Clean` on the component list of a path:
empty and "." components vanish, ".." pops the previous component (at the
root of an absolute path it vanishes; in a relative path with nothing to
pop it is retained). -/
def cleanParts (isAbs : Bool) (parts : List String) : List String :=
  parts.foldl (fun acc part =>
    if part = "" ∨ part = "." then acc
    else if part = ".." then
      match acc.getLast? with
      | some x => if x = ".." then acc ++ [".."] else acc.dropLast
      | none => if isAbs then [] else [".."]
    else acc ++ [part]) []

/-- Length of the longest common component run of two paths. -/
def commonLen : List String → List String → Nat
  | a :: as', b :: bs => if a = b then commonLen as' bs + 1 else 0
  | _, _ => 0

/-- Model of Go `filepath.Rel(base, targ)`: `none` models the error return
(mixed absolute/relative inputs, or a base that cannot be backed out of);
otherwise the lexical relative path from base to targ. -/
def relPath (base targ : String) : Option String :=
  let baseAbs := strStarts base "/"
  let targAbs := strStarts targ "/"
  if baseAbs ≠ targAbs then none
  else
    let pb := cleanParts baseAbs (splitPath base)
    let pt := cleanParts targAbs (splitPath targ)
    if pb = pt then some "."
    else
      let c := commonLen pb pt
      if (pb.drop c).contains ".." then none
      else some (joinParts (List.replicate (pb.length - c) ".." ++ pt.drop c))

/-- Model of Go `filepath.Join` on two already-clean path fragments. -/
def joinPath (a b : String) : String :=
  if a = "" then b else if b = "" then a else a ++ "/" ++ b

/-- Model of Go `filepath.Base`: the last non-empty component of the path. -/
def baseName (p : String) : String :=
  match ((splitPath p).filter (fun s => s != "")).getLast? with
  | some s => s
  | none => if strStarts p "/" then "/" else "."

/-- Modelled from the spec: flattening converts a command-line string into a
filesystem-safe token (the `flatCmd` helper is not under src/); characters
other than letters and digits become underscores. -/
def flatCmd (s : String) : String :=
  String.mk (s.toList.map (fun c => if c.isAlphanum then c else '_'))

/-- Modelled from the spec: the quote-aware argument splitter of section 4.1
(`commandSplit` is not under src/).  A run delimited by single or double
quotes is one token even when it holds whitespace; an unterminated quote is
a syntax error. -/
def commandSplitAux : List Char → Option Char → List Char → List String → Except String (List String)
  | [], some q, _, _ => .error ("unterminated quote " ++ String.mk [q])
  | [], none, [], acc => .ok acc.reverse
  | [], none, cur, acc => .ok ((String.mk cur.reverse) :: acc).reverse
  | c :: rest, some q, cur, acc =>
    if c = q then commandSplitAux rest none cur acc
    else commandSplitAux rest (some q) (c :: cur) acc
  | c :: rest, none, cur, acc =>
    if c = '\'' ∨ c = '"' then commandSplitAux rest (some c) cur acc
    else if c.isWhitespace then
      if cur = [] then commandSplitAux rest none [] acc
      else commandSplitAux rest none [] ((String.mk cur.reverse) :: acc)
    else commandSplitAux rest none (c :: cur) acc

/-- Modelled from the spec: split a command line into quote-respecting
tokens. -/
def commandSplit (s : String) : Except String (List String) :=
  commandSplitAux s.toList none [] []

/-- Modelled from the spec: `CaptureCommand.GetParsedCli` tokenizes the CLI
string into a program name and argument list. -/
def parsedCliOf (cli : String) : String × List String :=
  match commandSplit cli with
  | .ok (h :: t) => (h, t)
  | _ => ("", [])

/-- Modelled from the spec: the single-path preamble constructors read their
path from a `path:value` named parameter. -/
def parsePathArg (raw : String) : String :=
  if strStarts raw "path:" then String.mk (raw.toList.drop 5) else trimChars raw

/-! ## Command model (script package, modelled from the spec) -/

/-- Modelled from the spec: the closed set of Command variants of the
`script` package (section 3 of the spec); each carries the 1-based source
line (`index`, 0 for synthesized defaults) it was built from. -/
inductive Command where
  | asCmd (index : Nat) (rawArgs : String)
  | fromCmd (index : Nat) (sources : List String)
  | envCmd (index : Nat) (envs : List String)
  | kubeConfigCmd (index : Nat) (path : String)
  | authConfigCmd (index : Nat) (rawArgs : String)
  | outputCmd (index : Nat) (path : String)
  | workdirCmd (index : Nat) (dir : String)
  | captureCmd (index : Nat) (cliString : String)
  | copyCmd (index : Nat) (args : List String)
  | runCmd (index : Nat) (rawArgs : String)
  | kubeGetCmd (index : Nat) (rawArgs : String)
deriving DecidableEq, Repr

/-- True exactly when the command's dynamic type is `*script.FromCommand`. -/
def Command.isFromC : Command → Bool
  | .fromCmd _ _ => true
  | _ => false

/-- True exactly when the command's dynamic type is `*script.AsCommand`. -/
def Command.isAsC : Command → Bool
  | .asCmd _ _ => true
  | _ => false

/-- True exactly when the command's dynamic type is `*script.WorkdirCommand`. -/
def Command.isWorkdirC : Command → Bool
  | .workdirCmd _ _ => true
  | _ => false

/-- The parsed job: Preambles is the Go `map[string][]script.Command`
(embedded as an association list with at most one pair per key, as a Go map
guarantees), Actions the ordered action sequence. -/
structure Script where
  Preambles : List (String × List Command)
  Actions : List Command
deriving DecidableEq, Repr

/-- Go map read `m[k]` presence form: first (only) value stored at key `k`. -/
def mapFind? : List (String × List Command) → String → Option (List Command)
  | [], _ => none
  | (k', v') :: rest, k => if k' = k then some v' else mapFind? rest k

/-- Go map write `m[k] = v`: replace the value at `k`, or add the entry. -/
def mapSet : List (String × List Command) → String → List Command → List (String × List Command)
  | [], k, v => [(k, v)]
  | (k', v') :: rest, k, v => if k' = k then (k, v) :: rest else (k', v') :: mapSet rest k v

/-- Number of entries the mapping holds for key `k`. -/
def countKey (m : List (String × List Command)) (k : String) : Nat :=
  (m.filter (fun p => p.1 == k)).length

/-- Structural invariant of a Go map embedding: no duplicate keys. -/
def PreNodup (m : List (String × List Command)) : Prop :=
  (m.map Prod.fst).Nodup

/-! ## Directive names and the capability table -/

def CmdAs : String := "AS"
def CmdEnv : String := "ENV"
def CmdFrom : String := "FROM"
def CmdKubeConfig : String := "KUBECONFIG"
def CmdAuthConfig : String := "AUTHCONFIG"
def CmdOutput : String := "OUTPUT"
def CmdWorkDir : String := "WORKDIR"
def CmdCapture : String := "CAPTURE"
def CmdCopy : String := "COPY"
def CmdRun : String := "RUN"
def CmdKubeGet : String := "KUBEGET"

/-- Modelled from the spec: the Supported flag of the directive capability
table `script.Cmds` (section 6 lists exactly these recognized directives;
the table itself is not under src/).  A name absent from the table reads the
zero value, whose Supported flag is false. -/
def CmdsSupported (c : String) : Bool :=
  c == CmdAs || c == CmdEnv || c == CmdFrom || c == CmdKubeConfig || c == CmdAuthConfig ||
  c == CmdOutput || c == CmdWorkDir || c == CmdCapture || c == CmdCopy || c == CmdRun ||
  c == CmdKubeGet

/-! ## Command constructors (script package, modelled from the spec) -/

/-- Modelled from the spec: `script.NewAsCommand` keeps the identity
argument text; resolution to numeric credentials happens against the user
database (section 3: Identity). -/
def NewAsCommand (index : Nat) (rawArgs : String) : Command := .asCmd index rawArgs

/-- Modelled from the spec: `script.NewFromCommand` stores the ordered list
of target node descriptors. -/
def NewFromCommand (index : Nat) (rawArgs : String) : Command := .fromCmd index (wsSplit rawArgs)

/-- Modelled from the spec: `script.NewEnvCommand` stores the KEY=VALUE
strings of one ENV directive. -/
def NewEnvCommand (index : Nat) (rawArgs : String) : Command := .envCmd index (wsSplit rawArgs)

/-- Modelled from the spec: `script.NewKubeConfigCommand` stores a single
filesystem path. -/
def NewKubeConfigCommand (index : Nat) (rawArgs : String) : Command :=
  .kubeConfigCmd index (parsePathArg rawArgs)

/-- Modelled from the spec: `script.NewAuthConfigCommand` stores the
username / private-key configuration text. -/
def NewAuthConfigCommand (index : Nat) (rawArgs : String) : Command := .authConfigCmd index rawArgs

/-- Modelled from the spec: `script.NewOutputCommand` stores a single
filesystem path. -/
def NewOutputCommand (index : Nat) (rawArgs : String) : Command :=
  .outputCmd index (parsePathArg rawArgs)

/-- Modelled from the spec: `script.NewWorkdirCommand` stores the working
directory path. -/
def NewWorkdirCommand (index : Nat) (rawArgs : String) : Command :=
  .workdirCmd index (parsePathArg rawArgs)

/-- Modelled from the spec: `script.NewCaptureCommand` stores the raw
command-line string, returned by `GetCliString`. -/
def NewCaptureCommand (index : Nat) (rawArgs : String) : Command := .captureCmd index rawArgs

/-- Modelled from the spec: `script.NewCopyCommand` stores the list of
source paths to mirror. -/
def NewCopyCommand (index : Nat) (rawArgs : String) : Command := .copyCmd index (wsSplit rawArgs)

/-- Modelled from the spec: `script.NewRunCommand` (validated, delegated to
collaborators). -/
def NewRunCommand (index : Nat) (rawArgs : String) : Command := .runCmd index rawArgs

/-- Modelled from the spec: `script.NewKubeGetCommand` (validated, delegated
to collaborators). -/
def NewKubeGetCommand (index : Nat) (rawArgs : String) : Command := .kubeGetCmd index rawArgs

/-! ## Parser (src/unnamed/part_000, `Parse`) -/

/-- One line of `Parse`'s loop head: `strings.TrimSpace`, the blank/comment
skip, and `spaceSep.Split(text, 2)`.  `none` means the line is skipped;
otherwise the directive name and the raw argument text (everything after the
first whitespace character). -/
def lineDirective (text : String) : Option (String × String) :=
  let t := trimChars text
  match t.toList with
  | [] => none
  | c0 :: _ =>
    if c0 = '#' then none
    else
      let cs := t.toList
      let name := cs.takeWhile (fun c => !c.isWhitespace)
      match cs.dropWhile (fun c => !c.isWhitespace) with
      | [] => some (String.mk name, "")
      | _ :: tail => some (String.mk name, String.mk tail)

/-- The error text of `fmt.Errorf("line %d: %s unsupported", line, cmdName)`. -/
def unsupportedMsg (line : Nat) (cmdName : String) : String :=
  "line " ++ toString line ++ ": " ++ cmdName ++ " unsupported"

/-- The dispatch switch of `Parse`: one case per supported directive.
Single-value preambles are overwritten (`save only last`), ENV appends to
the existing ENV list, actions append to the Actions sequence. -/
def parseStep (n : Nat) (c rawArgs : String) (scr : Script) : Except String Script :=
  if c = CmdAs then
    .ok { scr with Preambles := mapSet scr.Preambles CmdAs [NewAsCommand n rawArgs] }
  else if c = CmdEnv then
    let envs := (mapFind? scr.Preambles CmdEnv).getD []
    .ok { scr with Preambles := mapSet scr.Preambles CmdEnv (envs ++ [NewEnvCommand n rawArgs]) }
  else if c = CmdFrom then
    .ok { scr with Preambles := mapSet scr.Preambles CmdFrom [NewFromCommand n rawArgs] }
  else if c = CmdKubeConfig then
    .ok { scr with Preambles := mapSet scr.Preambles CmdKubeConfig [NewKubeConfigCommand n rawArgs] }
  else if c = CmdAuthConfig then
    .ok { scr with Preambles := mapSet scr.Preambles CmdAuthConfig [NewAuthConfigCommand n rawArgs] }
  else if c = CmdOutput then
    .ok { scr with Preambles := mapSet scr.Preambles CmdOutput [NewOutputCommand n rawArgs] }
  else if c = CmdWorkDir then
    .ok { scr with Preambles := mapSet scr.Preambles CmdWorkDir [NewWorkdirCommand n rawArgs] }
  else if c = CmdCapture then
    .ok { scr with Actions := scr.Actions ++ [NewCaptureCommand n rawArgs] }
  else if c = CmdCopy then
    .ok { scr with Actions := scr.Actions ++ [NewCopyCommand n rawArgs] }
  else if c = CmdRun then
    .ok { scr with Actions := scr.Actions ++ [NewRunCommand n rawArgs] }
  else if c = CmdKubeGet then
    .ok { scr with Actions := scr.Actions ++ [NewKubeGetCommand n rawArgs] }
  else .error (c ++ " not supported")

/-- The line loop of `Parse`: scan lines in order (1-based count), skip
blank and comment lines (count still advances), reject unsupported
directives with a line-numbered error, stop at the first error. -/
def parseLoop : Nat → List String → Script → Except String Script
  | _, [], scr => .ok scr
  | n, text :: rest, scr =>
    match lineDirective text with
    | none => parseLoop (n + 1) rest scr
    | some (cmdName, rawArgs) =>
      if CmdsSupported cmdName = false then .error (unsupportedMsg n cmdName)
      else
        match parseStep n cmdName rawArgs scr with
        | .error e => .error e
        | .ok scr' => parseLoop (n + 1) rest scr'

/-! ## Defaults resolver (src/unnamed/part_000, `enforceDefaults`) -/

/-- Modelled from the spec: the process-wide environmental facts the
defaults resolver reads (current uid/gid from `os.Getuid`/`os.Getgid`, the
`script.Defaults` values of the missing script package). -/
structure DefaultsEnv where
  uid : Nat
  gid : Nat
  fromValue : String
  workdirValue : String
  outputValue : String
  kubeConfigValue : String
deriving Repr

/-- The default AS argument text `fmt.Sprintf("userid:%d groupid:%d", ...)`. -/
def defaultAsArgs (denv : DefaultsEnv) : String :=
  "userid:" ++ toString denv.uid ++ " groupid:" ++ toString denv.gid

/-- The literal default AUTHCONFIG argument text of `enforceDefaults`. -/
def defaultAuthArgs : String :=
  "username:$\x7bUSER\x7d private-key:$\x7bHOME\x7d/.ssh/id_rsa"

/-- One `if _, ok := scr.Preambles[k]; !ok { ... }` block of
`enforceDefaults`: insert the default only when the key is absent. -/
def defStep (m : List (String × List Command)) (k : String) (cmd : Command) :
    List (String × List Command) :=
  match mapFind? m k with
  | some _ => m
  | none => mapSet m k [cmd]

/-- `enforceDefaults`: fill each absent configuration directive with a
default command built at line 0, in the source's order AS, FROM,
AUTHCONFIG, WORKDIR, OUTPUT, KUBECONFIG. -/
def enforceDefaults (denv : DefaultsEnv) (scr : Script) : Script :=
  let m1 := defStep scr.Preambles CmdAs (NewAsCommand 0 (defaultAsArgs denv))
  let m2 := defStep m1 CmdFrom (NewFromCommand 0 denv.fromValue)
  let m3 := defStep m2 CmdAuthConfig (NewAuthConfigCommand 0 defaultAuthArgs)
  let m4 := defStep m3 CmdWorkDir (NewWorkdirCommand 0 ("path:" ++ denv.workdirValue))
  let m5 := defStep m4 CmdOutput (NewOutputCommand 0 ("path:" ++ denv.outputValue))
  let m6 := defStep m5 CmdKubeConfig (NewKubeConfigCommand 0 ("path:" ++ denv.kubeConfigValue))
  { scr with Preambles := m6 }

/-- `Parse`: run the line loop from line 1 over an empty script, then apply
the defaults resolver. -/
def Parse (denv : DefaultsEnv) (lines : List String) : Except String Script :=
  match parseLoop 1 lines { Preambles := [], Actions := [] } with
  | .error e => .error e
  | .ok scr => .ok (enforceDefaults denv scr)

/-! ## Occurrence bookkeeping used to state the parser claims -/

/-- All occurrences of directive `d` (line number and raw arguments) in the
lines, counting from line `n`, in source order. -/
def dirOccs (d : String) : Nat → List String → List (Nat × String)
  | _, [] => []
  | n, t :: rest =>
    match lineDirective t with
    | some (c, a) => if c = d then (n, a) :: dirOccs d (n + 1) rest else dirOccs d (n + 1) rest
    | none => dirOccs d (n + 1) rest

/-- The last occurrence of directive `d` in the lines, counting from `n`. -/
def lastDirOcc (d : String) : Nat → List String → Option (Nat × String)
  | _, [] => none
  | n, t :: rest =>
    match lastDirOcc d (n + 1) rest with
    | some r => some r
    | none =>
      match lineDirective t with
      | some (c, a) => if c = d then some (n, a) else none
      | none => none

/-- The action directives. -/
def actionDirs : List String := [CmdCapture, CmdCopy, CmdRun, CmdKubeGet]

/-- All action-directive occurrences (name, line, raw arguments) in source
order, counting from line `n`. -/
def actionOccs : Nat → List String → List (String × Nat × String)
  | _, [] => []
  | n, t :: rest =>
    match lineDirective t with
    | some (c, a) =>
      if actionDirs.contains c then (c, n, a) :: actionOccs (n + 1) rest
      else actionOccs (n + 1) rest
    | none => actionOccs (n + 1) rest

/-- The single-value preamble directives of the parser's overwrite rule. -/
def singlesDirs : List String :=
  [CmdAs, CmdFrom, CmdKubeConfig, CmdAuthConfig, CmdOutput, CmdWorkDir]

/-- The six configuration directives the defaults resolver guarantees. -/
def sixConfigDirs : List String :=
  [CmdAs, CmdFrom, CmdAuthConfig, CmdOutput, CmdWorkDir, CmdKubeConfig]

/-- The constructor `Parse` dispatches a single-value preamble directive to. -/
def mkSingleCmd (d : String) (n : Nat) (args : String) : Command :=
  if d = CmdAs then NewAsCommand n args
  else if d = CmdFrom then NewFromCommand n args
  else if d = CmdKubeConfig then NewKubeConfigCommand n args
  else if d = CmdAuthConfig then NewAuthConfigCommand n args
  else if d = CmdOutput then NewOutputCommand n args
  else NewWorkdirCommand n args

/-- The constructor `Parse` dispatches an action directive to. -/
def mkActionCmd (d : String) (n : Nat) (args : String) : Command :=
  if d = CmdCapture then NewCaptureCommand n args
  else if d = CmdCopy then NewCopyCommand n args
  else if d = CmdRun then NewRunCommand n args
  else NewKubeGetCommand n args

/-! ## Executor (src/exec/executor.go) -/

/-- A source file tree a COPY argument resolves to: regular files carry the
size `os.FileInfo.Size` reports (`statSize`) and the number of bytes
actually delivered by `io.Copy` (`actualLen`, which differs from `statSize`
when the file changes between stat and read); `other` is any non-regular
non-directory node (symlink, device, ...).  Children are stored in the
sorted order that `filepath.Walk` visits them in. -/
inductive FTree where
  | file (name : String) (statSize actualLen : Nat)
  | dir (name : String) (children : List FTree)
  | other (name : String)
deriving Repr

/-- The name of a tree node. -/
def FTree.name : FTree → String
  | .file n _ _ => n
  | .dir n _ => n
  | .other n => n

/-- Observable filesystem effects of one `Execute` run, in order. -/
inductive Event where
  | mkdirAll (dir : String)
  | copiedFile (src dest : String) (bytes : Nat)
  | wroteFile (path : String)
  | logErr (msg : String)
deriving DecidableEq, Repr

/-- How an `Execute` call ends: a nil return, a non-nil error return, or a
Go runtime panic (out-of-range index, failed type assertion). -/
inductive Outcome where
  | ok
  | error (msg : String)
  | panicked (msg : String)
deriving DecidableEq, Repr

/-- The events `Execute` performed and how it ended. -/
structure ExecResult where
  events : List Event
  outcome : Outcome
deriving DecidableEq, Repr

/-- The external world `Execute` runs against: `resolveCreds` is the user
database behind `AsCommand.GetCredentials`; `cliRun` is `CliRun` (spawn a
subprocess under uid/gid with the merged environment; modelled from the
spec, the helper is not under src/); `writeFileRes` gives the error, if
any, of `writeFile` at a path; `fs` resolves a COPY argument to the tree
`filepath.Walk` visits (`none`: the initial lstat fails). -/
structure ExecEnv where
  resolveCreds : String → Except String (Nat × Nat)
  cliRun : Nat → Nat → List String → String → List String → Except String String
  writeFileRes : String → Option String
  fs : String → Option FTree

/-- The per-run state assembled by `Execute`'s preamble phase. -/
structure ExecCtx where
  uid : Nat
  gid : Nat
  envPairs : List String
  wd : String

/-- The Go panic text of indexing an empty slice. -/
def indexPanicMsg : String := "runtime error: index out of range [0] with length 0"

/-- The Go panic text of a failed interface type assertion. -/
def castPanicMsg : String := "interface conversion"

/-- The size-mismatch error of the copy walk
(`fmt.Errorf("%s did not complet for %s", cmd.Name, file)`). -/
def copyMismatchMsg (cmdName file : String) : String :=
  cmdName ++ " did not complet for " ++ file

/-- The unknown-file-type error of the copy walk. -/
def copyUnknownTypeMsg (cmdName file : String) : String :=
  cmdName ++ " unknown file type for " ++ file

/-- The walk-root error when the COPY argument cannot be lstat'ed. -/
def copyLstatMsg (path : String) : String :=
  "lstat " ++ path ++ ": no such file or directory"

/-- The logged rejection of a self-referential COPY path
(`logrus.Errorf("%s path %s cannot be relative to workdir %s", ...)`). -/
def copySkipMsg (cmdName path wd : String) : String :=
  cmdName ++ " path " ++ path ++ " cannot be relative to workdir " ++ wd

/-- The guard of the copy loop:
`relPath, err := filepath.Rel(workdir, path); err == nil && !strings.HasPrefix(relPath, "..")`.
True means the path is rejected and skipped. -/
def copySkipCheck (wd path : String) : Bool :=
  match relPath wd path with
  | some r => !(strStarts r "..")
  | none => false

mutual

/-- The body of `filepath.Walk`'s callback over a resolved tree, visiting
the node at `path`: directories are recreated at
`filepath.Join(workdir, filepath.Base(file))`, regular files are copied
there with a byte-count check, anything else is an error.  The first error
aborts the walk; events performed before it are kept. -/
def walkNode (wd cmdName : String) (path : String) : FTree → List Event × Option String
  | .file _ statSize actualLen =>
    let sub := joinPath wd (baseName path)
    ([Event.copiedFile path sub actualLen],
      if actualLen ≠ statSize then some (copyMismatchMsg cmdName path) else none)
  | .other _ => ([], some (copyUnknownTypeMsg cmdName path))
  | .dir _ children =>
    let sub := joinPath wd (baseName path)
    let r := walkChildren wd cmdName path children
    (Event.mkdirAll sub :: r.1, r.2)
termination_by structural t => t

/-- Walk the children of a directory in order, stopping at the first error. -/
def walkChildren (wd cmdName dirPath : String) : List FTree → List Event × Option String
  | [] => ([], none)
  | c :: rest =>
    let r := walkNode wd cmdName (joinPath dirPath c.name) c
    match r.2 with
    | some e => (r.1, some e)
    | none =>
      let r2 := walkChildren wd cmdName dirPath rest
      (r.1 ++ r2.1, r2.2)
termination_by structural l => l

end

/-- One COPY argument: the self-reference guard, then the walk; a walk
error is logged (`logrus.Error(err)`) and never escapes. -/
def execCopyPath (env : ExecEnv) (ctx : ExecCtx) (cmdName path : String) : List Event :=
  if copySkipCheck ctx.wd path then [Event.logErr (copySkipMsg cmdName path ctx.wd)]
  else
    match env.fs path with
    | none => [Event.logErr (copyLstatMsg path)]
    | some t =>
      let r := walkNode ctx.wd cmdName path t
      r.1 ++ (match r.2 with | some e => [Event.logErr e] | none => [])

/-- All arguments of one COPY action, in order. -/
def execCopy (env : ExecEnv) (ctx : ExecCtx) : List String → List Event
  | [] => []
  | p :: rest => execCopyPath env ctx CmdCopy p ++ execCopy env ctx rest

/-- One action of the inner loop: COPY (never fatal), CAPTURE (spawn via
`CliRun`, then write the output to `workdir/flatCmd(cli).txt`; any error is
returned and fatal), and the `default:` branch that ignores RUN and
KUBEGET. -/
def execAction (env : ExecEnv) (ctx : ExecCtx) : Command → List Event × Option String
  | .copyCmd _ args => (execCopy env ctx args, none)
  | .captureCmd _ cli =>
    let pc := parsedCliOf cli
    match env.cliRun ctx.uid ctx.gid ctx.envPairs pc.1 pc.2 with
    | .error e => ([], some e)
    | .ok _ =>
      let fp := joinPath ctx.wd (flatCmd cli ++ ".txt")
      match env.writeFileRes fp with
      | some e => ([], some e)
      | none => ([Event.wroteFile fp], none)
  | _ => ([], none)

/-- The action loop for one FROM source: run actions in declared order,
returning at the first fatal error. -/
def execActions (env : ExecEnv) (ctx : ExecCtx) : List Command → List Event × Option String
  | [] => ([], none)
  | a :: rest =>
    let r := execAction env ctx a
    match r.2 with
    | some e => (r.1, some e)
    | none =>
      let r2 := execActions env ctx rest
      (r.1 ++ r2.1, r2.2)

/-- The outer loop over the FROM sources (the loop body never reads the
source descriptor itself); a fatal error stops the remaining sources too. -/
def execNodes (env : ExecEnv) (ctx : ExecCtx) : List String → List Command → List Event × Option String
  | [], _ => ([], none)
  | _ :: rest, acts =>
    let r := execActions env ctx acts
    match r.2 with
    | some e => (r.1, some e)
    | none =>
      let r2 := execNodes env ctx rest acts
      (r.1 ++ r2.1, r2.2)

/-- The ENV collection loop: each preamble stored under ENV is asserted to
`*script.EnvCommand` (anything else is a Go panic, `none` here) and its
entries appended in order. -/
def collectEnvs : List Command → Option (List String)
  | [] => some []
  | .envCmd _ es :: rest => (collectEnvs rest).map (fun r => es ++ r)
  | _ :: _ => none

/-- `Executor.Execute`: look up FROM, AS and WORKDIR (an absent key is the
"Script missing valid" error; indexing `cmds[0]` of an empty list and the
`.(*script.XCommand)` assertions panic), resolve AS credentials (a failure
is returned before anything else happens), create the working directory,
collect ENV pairs, then run every action for every FROM source. -/
def Execute (env : ExecEnv) (scr : Script) : ExecResult :=
  match mapFind? scr.Preambles CmdFrom with
  | none => ⟨[], .error ("Script missing valid " ++ CmdFrom)⟩
  | some fromCmds =>
    match fromCmds with
    | [] => ⟨[], .panicked indexPanicMsg⟩
    | fc :: _ =>
      match fc with
      | .fromCmd _ sources =>
        (match mapFind? scr.Preambles CmdAs with
        | none => ⟨[], .error ("Script missing valid " ++ CmdAs)⟩
        | some asCmds =>
          match asCmds with
          | [] => ⟨[], .panicked indexPanicMsg⟩
          | ac :: _ =>
            match ac with
            | .asCmd _ asArgs =>
              (match env.resolveCreds asArgs with
              | .error e => ⟨[], .error e⟩
              | .ok (uid, gid) =>
                match mapFind? scr.Preambles CmdWorkDir with
                | none => ⟨[], .error ("Script missing valid " ++ CmdWorkDir)⟩
                | some wdCmds =>
                  match wdCmds with
                  | [] => ⟨[], .panicked indexPanicMsg⟩
                  | wc :: _ =>
                    match wc with
                    | .workdirCmd _ wd =>
                      (match collectEnvs ((mapFind? scr.Preambles CmdEnv).getD []) with
                      | none => ⟨[Event.mkdirAll wd], .panicked castPanicMsg⟩
                      | some envPairs =>
                        let r := execNodes env ⟨uid, gid, envPairs, wd⟩ sources scr.Actions
                        ⟨Event.mkdirAll wd :: r.1,
                          match r.2 with | some e => .error e | none => .ok⟩)
                    | _ => ⟨[], .panicked castPanicMsg⟩)
            | _ => ⟨[], .panicked castPanicMsg⟩)
      | _ => ⟨[], .panicked castPanicMsg⟩

/-- The paths of the files an event trace created (captures and copies). -/
def createdFilePaths (evs : List Event) : List String :=
  evs.foldr (fun e acc =>
    match e with
    | .wroteFile p => p :: acc
    | .copiedFile _ d _ => d :: acc
    | _ => acc) []

/-- Whether the first list of components leads (is an initial run of) the
second. -/
def partsLead : List String → List String → Bool
  | [], _ => true
  | a :: as', b :: bs => a == b && partsLead as' bs
  | _ :: _, [] => false

/-- Modelled from the spec: the containment predicate of the COPY safety
claim — the source path equals the working directory or lies inside it
(its cleaned components extend the working directory's). -/
def insideOrEqual (wd p : String) : Bool :=
  (strStarts wd "/" == strStarts p "/") &&
    partsLead (cleanParts (strStarts wd "/") (splitPath wd))
      (cleanParts (strStarts p "/") (splitPath p))

/-! ## Concrete fixtures used to instantiate the theorems -/

/-- The empty script the parser starts from. -/
def emptyScr : Script := { Preambles := [], Actions := [] }

/-- A concrete defaults environment (uid/gid 1000, local node, fixed paths). -/
def denvW : DefaultsEnv :=
  ⟨1000, 1000, "local", "/tmp/flareout", "/tmp/out.tar.gz", "/root/.kube/config"⟩

/-- An execution environment where everything succeeds. -/
def envOkW : ExecEnv :=
  ⟨fun _ => .ok (0, 0), fun _ _ _ _ _ => .ok "HELLO WORLD", fun _ => none, fun _ => none⟩

/-- An execution environment whose user database resolves nothing
(models `AS foo:barr` against a real passwd file). -/
def envBadUserW : ExecEnv :=
  ⟨fun _ => .error "user: unknown user foo", fun _ _ _ _ _ => .ok "", fun _ => none, fun _ => none⟩

/-- An execution environment where spawning the subprocess fails. -/
def envBadCliW : ExecEnv :=
  ⟨fun _ => .ok (0, 0), fun _ _ _ _ _ => .error "fork/exec ./ffoobarr: no such file or directory",
    fun _ => none, fun _ => none⟩

/-- An execution environment with two COPY sources on disk: a regular file
inside the working directory whose name starts with two dots, and a file
whose stat size (5) disagrees with the bytes actually read (3). -/
def envFsW : ExecEnv :=
  ⟨fun _ => .ok (0, 0), fun _ _ _ _ _ => .ok "", fun _ => none,
    fun p =>
      if p = "/tmp/work/..b" then some (FTree.file "..b" 4 4)
      else if p = "/data" then some (FTree.file "data" 5 3)
      else none⟩

/-- The run state of a resolved root identity with workdir /tmp/work. -/
def ctxW : ExecCtx := ⟨0, 0, [], "/tmp/work"⟩

/-- A source tree with two same-named files of different sizes in sibling
subdirectories: /data/x/f (1 byte) and /data/y/f (2 bytes). -/
def c6Tree : FTree := .dir "data" [.dir "x" [.file "f" 1 1], .dir "y" [.file "f" 2 2]]

/-- A well-formed script whose AS names an unresolvable identity. -/
def scrC4 : Script :=
  { Preambles := [(CmdFrom, [Command.fromCmd 0 ["local"]]),
                  (CmdAs, [Command.asCmd 1 "foo:barr"]),
                  (CmdWorkDir, [Command.workdirCmd 0 "/tmp/flareout"])],
    Actions := [Command.captureCmd 2 "/bin/echo hi"] }

/-- A well-formed script whose first action is a CAPTURE of a bad CLI
command, followed by another action that must never run. -/
def scrC7 : Script :=
  { Preambles := [(CmdFrom, [Command.fromCmd 0 ["local"]]),
                  (CmdAs, [Command.asCmd 0 "userid:0 groupid:0"]),
                  (CmdWorkDir, [Command.workdirCmd 0 "/tmp/work"])],
    Actions := [Command.captureCmd 1 "./ffoobarr", Command.captureCmd 2 "ls"] }

/-- A script text with repeated single-value directives, repeated ENV
directives, and two actions, used to instantiate the parser claims. -/
def linesW : List String :=
  ["AS a:b", "AS c:d", "ENV X=1", "FROM n1", "ENV Y=2", "COPY /a", "CAPTURE ls"]

/-- The script `linesW` parses to (total command constructors make the
parse succeed). -/
def sW : Script :=
  match Parse denvW linesW with
  | .ok s => s
  | .error _ => emptyScr

/-! ## Map helper lemmas -/

theorem mapFind?_mapSet_same (m : List (String × List Command)) (k : String) (v : List Command) :
    mapFind? (mapSet m k v) k = some v := by
  induction m with
  | nil => simp [mapSet, mapFind?]
  | cons p rest ih =>
    obtain ⟨k', v'⟩ := p
    by_cases h : k' = k
    · simp [mapSet, mapFind?, h]
    · simp [mapSet, mapFind?, h, ih]

theorem mapFind?_mapSet_ne (m : List (String × List Command)) (k k' : String) (v : List Command)
    (h : k ≠ k') : mapFind? (mapSet m k v) k' = mapFind? m k' := by
  induction m with
  | nil => simp [mapSet, mapFind?, h]
  | cons p rest ih =>
    obtain ⟨k0, v0⟩ := p
    by_cases h0 : k0 = k
    · subst h0; simp [mapSet, mapFind?, h]
    · simp [mapSet, mapFind?, h0, ih]

theorem mapFind?_defStep_ne (m : List (String × List Command)) (k d : String) (c : Command)
    (h : k ≠ d) : mapFind? (defStep m k c) d = mapFind? m d := by
  unfold defStep
  cases mapFind? m k with
  | none => exact mapFind?_mapSet_ne m k d [c] h
  | some v => rfl

theorem mapFind?_defStep_some (m : List (String × List Command)) (k d : String) (c : Command)
    (v : List Command) (h : mapFind? m d = some v) :
    mapFind? (defStep m k c) d = some v := by
  by_cases hkd : k = d
  · subst hkd
    unfold defStep
    rw [h]
    exact h
  · rw [mapFind?_defStep_ne m k d c hkd, h]

theorem mapFind?_defStep_absent (m : List (String × List Command)) (k : String) (c : Command)
    (h : mapFind? m k = none) : mapFind? (defStep m k c) k = some [c] := by
  unfold defStep
  rw [h]
  exact mapFind?_mapSet_same m k [c]

theorem mapFind?_defStep_isSome (m : List (String × List Command)) (k : String) (c : Command) :
    (mapFind? (defStep m k c) k).isSome := by
  unfold defStep
  cases h : mapFind? m k with
  | none => rw [mapFind?_mapSet_same m k [c]]; rfl
  | some v => rw [h]; rfl

theorem mapFind?_defStep_isSome_of (m : List (String × List Command)) (k d : String) (c : Command)
    (h : (mapFind? m d).isSome) : (mapFind? (defStep m k c) d).isSome := by
  by_cases hkd : k = d
  · subst hkd; exact mapFind?_defStep_isSome m k c
  · rw [mapFind?_defStep_ne m k d c hkd]; exact h

theorem mapSet_cons_same (k0 : String) (v0 : List Command) (rest : List (String × List Command))
    (k : String) (v : List Command) (h : k0 = k) :
    mapSet ((k0, v0) :: rest) k v = (k, v) :: rest := by
  simp [mapSet, h]

theorem mapSet_cons_ne (k0 : String) (v0 : List Command) (rest : List (String × List Command))
    (k : String) (v : List Command) (h : ¬k0 = k) :
    mapSet ((k0, v0) :: rest) k v = (k0, v0) :: mapSet rest k v := by
  simp [mapSet, h]

theorem preNodup_cons (a : String × List Command) (l : List (String × List Command)) :
    PreNodup (a :: l) ↔ a.1 ∉ l.map Prod.fst ∧ PreNodup l := by
  simp [PreNodup, List.nodup_cons]

theorem mem_keys_mapSet (m : List (String × List Command)) (k a : String) (v : List Command)
    (h : a ∈ (mapSet m k v).map Prod.fst) : a = k ∨ a ∈ m.map Prod.fst := by
  induction m with
  | nil =>
    simp only [mapSet, List.map_cons, List.map_nil, List.mem_singleton] at h
    exact Or.inl h
  | cons p rest ih =>
    obtain ⟨k0, v0⟩ := p
    by_cases h0 : k0 = k
    · rw [mapSet_cons_same k0 v0 rest k v h0] at h
      simp only [List.map_cons, List.mem_cons] at h
      rcases h with h | h
      · exact Or.inl h
      · exact Or.inr (List.mem_cons_of_mem _ h)
    · rw [mapSet_cons_ne k0 v0 rest k v h0] at h
      simp only [List.map_cons, List.mem_cons] at h
      rcases h with h | h
      · exact Or.inr (by rw [h]; exact List.mem_cons_self _ _)
      · rcases ih h with h' | h'
        · exact Or.inl h'
        · exact Or.inr (List.mem_cons_of_mem _ h')

theorem preNodup_mapSet (m : List (String × List Command)) (k : String) (v : List Command)
    (h : PreNodup m) : PreNodup (mapSet m k v) := by
  induction m with
  | nil =>
    simp only [mapSet]
    simp [PreNodup]
  | cons p rest ih =>
    obtain ⟨k0, v0⟩ := p
    rw [preNodup_cons] at h
    by_cases h0 : k0 = k
    · rw [mapSet_cons_same k0 v0 rest k v h0]
      rw [preNodup_cons]
      exact ⟨by rw [← h0]; exact h.1, h.2⟩
    · rw [mapSet_cons_ne k0 v0 rest k v h0]
      rw [preNodup_cons]
      refine ⟨?_, ih h.2⟩
      intro hmem
      rcases mem_keys_mapSet rest k k0 v hmem with h' | h'
      · exact h0 h'
      · exact h.1 h'

theorem preNodup_defStep (m : List (String × List Command)) (k : String) (c : Command)
    (h : PreNodup m) : PreNodup (defStep m k c) := by
  unfold defStep
  cases mapFind? m k with
  | none => exact preNodup_mapSet m k [c] h
  | some v => exact h

theorem countKey_cons (k0 : String) (v0 : List Command) (rest : List (String × List Command))
    (k : String) :
    countKey ((k0, v0) :: rest) k = (if k0 == k then 1 else 0) + countKey rest k := by
  by_cases h : (k0 == k) = true
  · simp only [countKey, List.filter_cons, h, if_true, List.length_cons]
    omega
  · simp only [countKey, List.filter_cons]
    rw [Bool.not_eq_true] at h
    simp [h]

theorem countKey_zero_of_not_mem (m : List (String × List Command)) (k : String)
    (h : k ∉ m.map Prod.fst) : countKey m k = 0 := by
  induction m with
  | nil => rfl
  | cons p rest ih =>
    obtain ⟨k0, v0⟩ := p
    simp only [List.map_cons, List.mem_cons, not_or] at h
    rw [countKey_cons]
    have hne : (k0 == k) = false := by
      simp only [beq_eq_false_iff_ne, ne_eq]
      exact fun hk => h.1 hk.symm
    rw [hne]
    simpa using ih h.2

theorem countKey_one_of_nodup (m : List (String × List Command)) (k : String)
    (hn : PreNodup m) (hs : (mapFind? m k).isSome) : countKey m k = 1 := by
  induction m with
  | nil => simp [mapFind?] at hs
  | cons p rest ih =>
    obtain ⟨k0, v0⟩ := p
    rw [preNodup_cons] at hn
    rw [countKey_cons]
    by_cases h0 : k0 = k
    · subst h0
      have hz : countKey rest k0 = 0 := countKey_zero_of_not_mem rest k0 hn.1
      simp [hz]
    · simp only [mapFind?, if_neg h0] at hs
      have hne : (k0 == k) = false := by simp [h0]
      rw [hne]
      simpa using ih hn.2 hs

/-- Flattened command strings never contain a path separator, so the
capture output file sits directly under the working directory. -/
theorem flatCmd_no_slash (s : String) : '/' ∈ (flatCmd s).toList → False := by
  intro h
  have he : (flatCmd s).toList = s.toList.map (fun c => if c.isAlphanum then c else '_') := rfl
  rw [he, List.mem_map] at h
  obtain ⟨a, _, ha⟩ := h
  by_cases hA : a.isAlphanum
  · rw [if_pos hA] at ha
    subst ha
    simp [Char.isAlphanum, Char.isAlpha, Char.isUpper, Char.isLower, Char.isDigit] at hA
  · rw [if_neg hA] at ha
    exact absurd ha (by decide)

/-! ## Claim theorems: executor -/

/-- C4: if the AS directive's identity does not resolve to numeric
credentials, `Execute` returns that error with no side effects at all: the
trace is empty (no working directory is created, no Capture or Copy runs),
because `GetCredentials` is called before the WORKDIR lookup, the
`MkdirAll`, and the action loops. -/
theorem c4_unresolved_identity_aborts_before_effects
    (env : ExecEnv) (scr : Script) (j : Nat) (ss : List String)
    (restf : List Command) (k : Nat) (asArgs : String) (resta : List Command) (e : String)
    (hfrom : mapFind? scr.Preambles CmdFrom = some (Command.fromCmd j ss :: restf))
    (has : mapFind? scr.Preambles CmdAs = some (Command.asCmd k asArgs :: resta))
    (hcred : env.resolveCreds asArgs = .error e) :
    Execute env scr = ⟨[], .error e⟩ := by
  simp [Execute, hfrom, has, hcred]

/-- C4 witness: a concrete well-formed script with `AS foo:barr` against a
user database that cannot resolve it. -/
theorem c4_witness :
    Execute envBadUserW scrC4 = ⟨[], .error "user: unknown user foo"⟩ :=
  c4_unresolved_identity_aborts_before_effects envBadUserW scrC4 0 ["local"] [] 1 "foo:barr" []
    "user: unknown user foo" rfl rfl rfl

/-- C5 counterexample: the path `/tmp/work/..b` lies inside the working
directory `/tmp/work`, yet the guard does not skip it — `filepath.Rel`
yields `..b`, which starts with the two characters `..`, so the copy walk
runs and copies the file onto itself instead of logging a rejection. -/
theorem c5_counterexample :
    insideOrEqual "/tmp/work" "/tmp/work/..b" = true ∧
    copySkipCheck "/tmp/work" "/tmp/work/..b" = false ∧
    execCopyPath envFsW ctxW CmdCopy "/tmp/work/..b" =
      [Event.copiedFile "/tmp/work/..b" "/tmp/work/..b" 4] := by
  refine ⟨by decide, by decide, ?_⟩
  rfl

/-- C5 (amended): a supplied COPY source path is rejected and skipped with
a logged error exactly when `filepath.Rel(workdir, path)` succeeds and its
result does not start with `..` (the working directory itself and paths
inside it whose first component below the working directory does not begin
with `..`); execution continues with the remaining paths. -/
theorem c5_self_copy_guard (env : ExecEnv) (ctx : ExecCtx) (p : String) (ps : List String)
    (h : copySkipCheck ctx.wd p = true) :
    execCopyPath env ctx CmdCopy p = [Event.logErr (copySkipMsg CmdCopy p ctx.wd)] ∧
    execCopy env ctx (p :: ps) =
      Event.logErr (copySkipMsg CmdCopy p ctx.wd) :: execCopy env ctx ps := by
  constructor
  · simp [execCopyPath, h]
  · simp [execCopy, execCopyPath, h]

/-- C5 witness: a path strictly inside the working directory is skipped
with the logged rejection and the remaining argument is still processed. -/
theorem c5_self_copy_guard_witness :
    execCopyPath envFsW ctxW CmdCopy "/tmp/work/sub" =
      [Event.logErr (copySkipMsg CmdCopy "/tmp/work/sub" "/tmp/work")] ∧
    execCopy envFsW ctxW ["/tmp/work/sub", "/data"] =
      Event.logErr (copySkipMsg CmdCopy "/tmp/work/sub" "/tmp/work") ::
        execCopy envFsW ctxW ["/data"] :=
  c5_self_copy_guard envFsW ctxW "/tmp/work/sub" ["/data"] (by decide)

/-- C6: evaluating the copy walk on a tree with two same-named files in
different subdirectories shows the flattening defect the code's own TODO
comment calls wrong: both regular files are copied to the same destination
`/tmp/w/f` directly under the working directory (the second overwrites the
first), and the subdirectories are recreated at `/tmp/w/x` and `/tmp/w/y`
rather than under `/tmp/w/data`, so the source structure is not
reproduced. -/
theorem c6_copy_flattens_structure :
    walkNode "/tmp/w" CmdCopy "/data" c6Tree =
      ([Event.mkdirAll "/tmp/w/data",
        Event.mkdirAll "/tmp/w/x",
        Event.copiedFile "/data/x/f" "/tmp/w/f" 1,
        Event.mkdirAll "/tmp/w/y",
        Event.copiedFile "/data/y/f" "/tmp/w/f" 2], none) ∧
    createdFilePaths (walkNode "/tmp/w" CmdCopy "/data" c6Tree).1 =
      ["/tmp/w/f", "/tmp/w/f"] := by
  constructor
  · rfl
  · rfl

/-- C7: a Capture failure is fatal and immediate.  A spawn failure (or a
failed output write) makes the capture's own execution return the error; a
fatal action error stops the action list right there (no event from and no
evaluation of the remaining actions); a fatal action-list error stops the
node loop (remaining sources are not visited); and `Execute` returns that
error having performed only the workdir creation. -/
theorem c7_capture_failure_aborts_run :
    (∀ (env : ExecEnv) (ctx : ExecCtx) (i : Nat) (cli e : String) (rest : List Command),
      env.cliRun ctx.uid ctx.gid ctx.envPairs (parsedCliOf cli).1 (parsedCliOf cli).2 = .error e →
      execActions env ctx (Command.captureCmd i cli :: rest) = ([], some e)) ∧
    (∀ (env : ExecEnv) (ctx : ExecCtx) (i : Nat) (cli e out : String) (rest : List Command),
      env.cliRun ctx.uid ctx.gid ctx.envPairs (parsedCliOf cli).1 (parsedCliOf cli).2 = .ok out →
      env.writeFileRes (joinPath ctx.wd (flatCmd cli ++ ".txt")) = some e →
      execActions env ctx (Command.captureCmd i cli :: rest) = ([], some e)) ∧
    (∀ (env : ExecEnv) (ctx : ExecCtx) (a : Command) (rest : List Command) (e : String),
      (execAction env ctx a).2 = some e →
      execActions env ctx (a :: rest) = ((execAction env ctx a).1, some e)) ∧
    (∀ (env : ExecEnv) (ctx : ExecCtx) (acts : List Command) (evs : List Event) (e : String)
      (node : String) (nodes : List String),
      execActions env ctx acts = (evs, some e) →
      execNodes env ctx (node :: nodes) acts = (evs, some e)) ∧
    (∀ (env : ExecEnv) (scr : Script) (j : Nat) (node : String) (nodes : List String)
      (k : Nat) (asArgs : String) (u g : Nat) (l : Nat) (wd : String)
      (i : Nat) (cli : String) (rest : List Command) (e : String),
      mapFind? scr.Preambles CmdFrom = some [Command.fromCmd j (node :: nodes)] →
      mapFind? scr.Preambles CmdAs = some [Command.asCmd k asArgs] →
      env.resolveCreds asArgs = .ok (u, g) →
      mapFind? scr.Preambles CmdWorkDir = some [Command.workdirCmd l wd] →
      mapFind? scr.Preambles CmdEnv = none →
      scr.Actions = Command.captureCmd i cli :: rest →
      env.cliRun u g [] (parsedCliOf cli).1 (parsedCliOf cli).2 = .error e →
      Execute env scr = ⟨[Event.mkdirAll wd], .error e⟩) := by
  refine ⟨?_, ?_, ?_, ?_, ?_⟩
  · intro env ctx i cli e rest h
    simp [execActions, execAction, h]
  · intro env ctx i cli e out rest h1 h2
    simp [execActions, execAction, h1, h2]
  · intro env ctx a rest e h
    simp [execActions, h]
  · intro env ctx acts evs e node nodes h
    simp [execNodes, h]
  · intro env scr j node nodes k asArgs u g l wd i cli rest e h1 h2 h3 h4 h5 h6 h7
    simp [Execute, h1, h2, h3, h4, h5, h6, collectEnvs, execNodes, execActions, execAction, h7]

/-- C7 witness: a concrete script whose first CAPTURE fails to spawn; the
second CAPTURE never runs and `Execute` returns the spawn error after
creating only the working directory. -/
theorem c7_witness :
    Execute envBadCliW scrC7 =
      ⟨[Event.mkdirAll "/tmp/work"], .error "fork/exec ./ffoobarr: no such file or directory"⟩ :=
  (c7_capture_failure_aborts_run.2.2.2.2) envBadCliW scrC7 0 "local" [] 0 "userid:0 groupid:0"
    0 0 0 "/tmp/work" 1 "./ffoobarr" [Command.captureCmd 2 "ls"]
    "fork/exec ./ffoobarr: no such file or directory" rfl rfl rfl rfl rfl rfl rfl

/-- C8: COPY errors never abort the run.  A COPY action's execution never
returns a fatal error; an action list starting with a COPY always goes on
to execute the remaining actions; the copy loop processes the remaining
arguments after each path; and a path whose walk fails (size mismatch,
unknown file type, walk error) contributes its partial events plus one
logged error, nothing more. -/
theorem c8_copy_walk_errors_logged_only :
    (∀ (env : ExecEnv) (ctx : ExecCtx) (i : Nat) (args : List String),
      (execAction env ctx (Command.copyCmd i args)).2 = none) ∧
    (∀ (env : ExecEnv) (ctx : ExecCtx) (i : Nat) (args : List String) (rest : List Command),
      execActions env ctx (Command.copyCmd i args :: rest) =
        (execCopy env ctx args ++ (execActions env ctx rest).1, (execActions env ctx rest).2)) ∧
    (∀ (env : ExecEnv) (ctx : ExecCtx) (p : String) (ps : List String),
      execCopy env ctx (p :: ps) = execCopyPath env ctx CmdCopy p ++ execCopy env ctx ps) ∧
    (∀ (env : ExecEnv) (ctx : ExecCtx) (p : String) (t : FTree) (evs : List Event) (e : String),
      copySkipCheck ctx.wd p = false → env.fs p = some t →
      walkNode ctx.wd CmdCopy p t = (evs, some e) →
      execCopyPath env ctx CmdCopy p = evs ++ [Event.logErr e]) := by
  refine ⟨?_, ?_, ?_, ?_⟩
  · intro env ctx i args
    simp [execAction]
  · intro env ctx i args rest
    simp [execActions, execAction]
  · intro env ctx p ps
    rfl
  · intro env ctx p t evs e h1 h2 h3
    simp [execCopyPath, h1, h2, h3]

/-- C8 witness: a COPY whose single file has stat size 5 but delivers 3
bytes; the mismatch is logged after the partial copy event, the next
argument is still processed, and the action is not fatal. -/
theorem c8_witness :
    (execAction envFsW ctxW (Command.copyCmd 1 ["/data"])).2 = none ∧
    execCopyPath envFsW ctxW CmdCopy "/data" =
      [Event.copiedFile "/data" "/tmp/work/data" 3] ++
        [Event.logErr (copyMismatchMsg CmdCopy "/data")] :=
  ⟨c8_copy_walk_errors_logged_only.1 envFsW ctxW 1 ["/data"],
    c8_copy_walk_errors_logged_only.2.2.2 envFsW ctxW "/data" (FTree.file "data" 5 3)
      [Event.copiedFile "/data" "/tmp/work/data" 3] (copyMismatchMsg CmdCopy "/data")
      (by decide) rfl rfl⟩

/-- C10: the executor's defensive precondition checks for FROM, AS and
WORKDIR only test map-key presence.  A wholly absent key yields the
"Script missing valid" error; a key present with an empty command list
panics on the `cmds[0]` index; a key present with a command of another
concrete type panics on the type assertion. -/
theorem c10_precheck_tests_key_presence_only :
    (∀ (env : ExecEnv) (scr : Script), mapFind? scr.Preambles CmdFrom = none →
      Execute env scr = ⟨[], .error ("Script missing valid " ++ CmdFrom)⟩) ∧
    (∀ (env : ExecEnv) (scr : Script), mapFind? scr.Preambles CmdFrom = some [] →
      Execute env scr = ⟨[], .panicked indexPanicMsg⟩) ∧
    (∀ (env : ExecEnv) (scr : Script) (c : Command) (rest : List Command),
      mapFind? scr.Preambles CmdFrom = some (c :: rest) → c.isFromC = false →
      Execute env scr = ⟨[], .panicked castPanicMsg⟩) ∧
    (∀ (env : ExecEnv) (scr : Script) (j : Nat) (ss : List String) (restf : List Command),
      mapFind? scr.Preambles CmdFrom = some (Command.fromCmd j ss :: restf) →
      mapFind? scr.Preambles CmdAs = none →
      Execute env scr = ⟨[], .error ("Script missing valid " ++ CmdAs)⟩) ∧
    (∀ (env : ExecEnv) (scr : Script) (j : Nat) (ss : List String) (restf : List Command),
      mapFind? scr.Preambles CmdFrom = some (Command.fromCmd j ss :: restf) →
      mapFind? scr.Preambles CmdAs = some [] →
      Execute env scr = ⟨[], .panicked indexPanicMsg⟩) ∧
    (∀ (env : ExecEnv) (scr : Script) (j : Nat) (ss : List String) (restf : List Command)
      (c : Command) (resta : List Command),
      mapFind? scr.Preambles CmdFrom = some (Command.fromCmd j ss :: restf) →
      mapFind? scr.Preambles CmdAs = some (c :: resta) → c.isAsC = false →
      Execute env scr = ⟨[], .panicked castPanicMsg⟩) ∧
    (∀ (env : ExecEnv) (scr : Script) (j : Nat) (ss : List String) (restf : List Command)
      (k : Nat) (asArgs : String) (resta : List Command) (u g : Nat),
      mapFind? scr.Preambles CmdFrom = some (Command.fromCmd j ss :: restf) →
      mapFind? scr.Preambles CmdAs = some (Command.asCmd k asArgs :: resta) →
      env.resolveCreds asArgs = .ok (u, g) →
      mapFind? scr.Preambles CmdWorkDir = none →
      Execute env scr = ⟨[], .error ("Script missing valid " ++ CmdWorkDir)⟩) ∧
    (∀ (env : ExecEnv) (scr : Script) (j : Nat) (ss : List String) (restf : List Command)
      (k : Nat) (asArgs : String) (resta : List Command) (u g : Nat),
      mapFind? scr.Preambles CmdFrom = some (Command.fromCmd j ss :: restf) →
      mapFind? scr.Preambles CmdAs = some (Command.asCmd k asArgs :: resta) →
      env.resolveCreds asArgs = .ok (u, g) →
      mapFind? scr.Preambles CmdWorkDir = some [] →
      Execute env scr = ⟨[], .panicked indexPanicMsg⟩) ∧
    (∀ (env : ExecEnv) (scr : Script) (j : Nat) (ss : List String) (restf : List Command)
      (k : Nat) (asArgs : String) (resta : List Command) (u g : Nat)
      (c : Command) (restw : List Command),
      mapFind? scr.Preambles CmdFrom = some (Command.fromCmd j ss :: restf) →
      mapFind? scr.Preambles CmdAs = some (Command.asCmd k asArgs :: resta) →
      env.resolveCreds asArgs = .ok (u, g) →
      mapFind? scr.Preambles CmdWorkDir = some (c :: restw) → c.isWorkdirC = false →
      Execute env scr = ⟨[], .panicked castPanicMsg⟩) := by
  refine ⟨?_, ?_, ?_, ?_, ?_, ?_, ?_, ?_, ?_⟩
  · intro env scr h
    simp [Execute, h]
  · intro env scr h
    simp [Execute, h]
  · intro env scr c rest h hc
    cases c <;> simp_all [Execute, Command.isFromC]
  · intro env scr j ss restf h1 h2
    simp [Execute, h1, h2]
  · intro env scr j ss restf h1 h2
    simp [Execute, h1, h2]
  · intro env scr j ss restf c resta h1 h2 hc
    cases c <;> simp_all [Execute, Command.isAsC]
  · intro env scr j ss restf k asArgs resta u g h1 h2 h3 h4
    simp [Execute, h1, h2, h3, h4]
  · intro env scr j ss restf k asArgs resta u g h1 h2 h3 h4
    simp [Execute, h1, h2, h3, h4]
  · intro env scr j ss restf k asArgs resta u g c restw h1 h2 h3 h4 hc
    cases c <;> simp_all [Execute, Command.isWorkdirC]

/-- C1: a script holding a single CAPTURE action with every other directive
defaulted executes successfully, creating the working directory and exactly
one output file, placed directly under the working directory (the flattened
name holds no separator) and named by flattening the command-line string
with suffix `.txt`. -/
theorem c1_single_capture_single_file
    (denv : DefaultsEnv) (env : ExecEnv) (i : Nat) (cli node : String) (u g : Nat) (out : String)
    (hnode : wsSplit denv.fromValue = [node])
    (hcred : env.resolveCreds (defaultAsArgs denv) = .ok (u, g))
    (hcli : env.cliRun u g [] (parsedCliOf cli).1 (parsedCliOf cli).2 = .ok out)
    (hwr : env.writeFileRes
      (joinPath (parsePathArg ("path:" ++ denv.workdirValue)) (flatCmd cli ++ ".txt")) = none) :
    Execute env (enforceDefaults denv { Preambles := [], Actions := [Command.captureCmd i cli] }) =
      ⟨[Event.mkdirAll (parsePathArg ("path:" ++ denv.workdirValue)),
        Event.wroteFile
          (joinPath (parsePathArg ("path:" ++ denv.workdirValue)) (flatCmd cli ++ ".txt"))],
        .ok⟩ ∧
    createdFilePaths
        (Execute env
          (enforceDefaults denv { Preambles := [], Actions := [Command.captureCmd i cli] })).events =
      [joinPath (parsePathArg ("path:" ++ denv.workdirValue)) (flatCmd cli ++ ".txt")] ∧
    ('/' ∈ (flatCmd cli).toList → False) := by
  have hmain :
      Execute env (enforceDefaults denv { Preambles := [], Actions := [Command.captureCmd i cli] }) =
        ⟨[Event.mkdirAll (parsePathArg ("path:" ++ denv.workdirValue)),
          Event.wroteFile
            (joinPath (parsePathArg ("path:" ++ denv.workdirValue)) (flatCmd cli ++ ".txt"))],
          .ok⟩ := by
    simp [Execute, enforceDefaults, defStep, mapFind?, mapSet, NewAsCommand, NewFromCommand,
      NewAuthConfigCommand, NewWorkdirCommand, NewOutputCommand, NewKubeConfigCommand,
      CmdAs, CmdFrom, CmdAuthConfig, CmdWorkDir, CmdOutput, CmdKubeConfig, CmdEnv,
      collectEnvs, execNodes, execActions, execAction, hnode, hcred, hcli, hwr]
  refine ⟨hmain, ?_, flatCmd_no_slash cli⟩
  rw [hmain]
  simp [createdFilePaths]

/-- C1 witness: `CAPTURE /bin/echo 'HELLO WORLD'` with all defaults
produces exactly the file `/tmp/flareout/_bin_echo__HELLO_WORLD_.txt`. -/
theorem c1_witness :
    Execute envOkW
        (enforceDefaults denvW
          { Preambles := [], Actions := [Command.captureCmd 1 "/bin/echo 'HELLO WORLD'"] }) =
      ⟨[Event.mkdirAll "/tmp/flareout",
        Event.wroteFile "/tmp/flareout/_bin_echo__HELLO_WORLD_.txt"], .ok⟩ ∧
    createdFilePaths
        (Execute envOkW
          (enforceDefaults denvW
            { Preambles := [], Actions := [Command.captureCmd 1 "/bin/echo 'HELLO WORLD'"] })).events =
      ["/tmp/flareout/_bin_echo__HELLO_WORLD_.txt"] := by
  have h := c1_single_capture_single_file denvW envOkW 1 "/bin/echo 'HELLO WORLD'" "local" 0 0
    "HELLO WORLD" (by decide) rfl rfl rfl
  exact ⟨h.1, h.2.1⟩

/-- Preambles of the defaults resolver's result, written as the chain of
its six conditional insertions. -/
theorem enforceDefaults_Preambles (denv : DefaultsEnv) (scr : Script) :
    (enforceDefaults denv scr).Preambles =
      defStep (defStep (defStep (defStep (defStep (defStep scr.Preambles
        CmdAs (NewAsCommand 0 (defaultAsArgs denv)))
        CmdFrom (NewFromCommand 0 denv.fromValue))
        CmdAuthConfig (NewAuthConfigCommand 0 defaultAuthArgs))
        CmdWorkDir (NewWorkdirCommand 0 ("path:" ++ denv.workdirValue)))
        CmdOutput (NewOutputCommand 0 ("path:" ++ denv.outputValue)))
        CmdKubeConfig (NewKubeConfigCommand 0 ("path:" ++ denv.kubeConfigValue)) := rfl

/-- C2: for every script (with the Go-map key-uniqueness invariant) missing
some configuration directive, the defaults-resolved script's Preambles
mapping holds exactly one entry for each of the six configuration
directives, and each directive that was absent is now bound to a
one-command list (its default). -/
theorem c2_defaults_fill_all_six
    (denv : DefaultsEnv) (scr : Script) (hn : PreNodup scr.Preambles)
    (habs : ∃ d ∈ sixConfigDirs, mapFind? scr.Preambles d = none) :
    ∀ d ∈ sixConfigDirs,
      countKey (enforceDefaults denv scr).Preambles d = 1 ∧
      (mapFind? scr.Preambles d = none →
        ∃ c, mapFind? (enforceDefaults denv scr).Preambles d = some [c]) := by
  clear habs
  intro d hd
  rw [enforceDefaults_Preambles]
  set P0 := scr.Preambles with hP0
  set P1 := defStep P0 CmdAs (NewAsCommand 0 (defaultAsArgs denv)) with hP1
  set P2 := defStep P1 CmdFrom (NewFromCommand 0 denv.fromValue) with hP2
  set P3 := defStep P2 CmdAuthConfig (NewAuthConfigCommand 0 defaultAuthArgs) with hP3
  set P4 := defStep P3 CmdWorkDir (NewWorkdirCommand 0 ("path:" ++ denv.workdirValue)) with hP4
  set P5 := defStep P4 CmdOutput (NewOutputCommand 0 ("path:" ++ denv.outputValue)) with hP5
  set P6 := defStep P5 CmdKubeConfig (NewKubeConfigCommand 0 ("path:" ++ denv.kubeConfigValue))
    with hP6
  have hn6 : PreNodup P6 := by
    apply preNodup_defStep
    apply preNodup_defStep
    apply preNodup_defStep
    apply preNodup_defStep
    apply preNodup_defStep
    apply preNodup_defStep
    exact hn
  simp only [sixConfigDirs, List.mem_cons, List.mem_singleton, List.not_mem_nil, or_false] at hd
  rcases hd with rfl | rfl | rfl | rfl | rfl | rfl
  · -- AS
    have hs : (mapFind? P1 CmdAs).isSome := mapFind?_defStep_isSome P0 CmdAs _
    have hs6 : (mapFind? P6 CmdAs).isSome := by
      apply mapFind?_defStep_isSome_of
      apply mapFind?_defStep_isSome_of
      apply mapFind?_defStep_isSome_of
      apply mapFind?_defStep_isSome_of
      apply mapFind?_defStep_isSome_of
      exact hs
    refine ⟨countKey_one_of_nodup P6 CmdAs hn6 hs6, ?_⟩
    intro habs
    refine ⟨NewAsCommand 0 (defaultAsArgs denv), ?_⟩
    have h1 : mapFind? P1 CmdAs = some [NewAsCommand 0 (defaultAsArgs denv)] :=
      mapFind?_defStep_absent P0 CmdAs _ habs
    apply mapFind?_defStep_some
    apply mapFind?_defStep_some
    apply mapFind?_defStep_some
    apply mapFind?_defStep_some
    apply mapFind?_defStep_some
    exact h1
  · -- FROM
    have hs : (mapFind? P2 CmdFrom).isSome := mapFind?_defStep_isSome P1 CmdFrom _
    have hs6 : (mapFind? P6 CmdFrom).isSome := by
      apply mapFind?_defStep_isSome_of
      apply mapFind?_defStep_isSome_of
      apply mapFind?_defStep_isSome_of
      apply mapFind?_defStep_isSome_of
      exact hs
    refine ⟨countKey_one_of_nodup P6 CmdFrom hn6 hs6, ?_⟩
    intro habs
    refine ⟨NewFromCommand 0 denv.fromValue, ?_⟩
    have h0 : mapFind? P1 CmdFrom = none := by
      rw [mapFind?_defStep_ne P0 CmdAs CmdFrom _ (by decide)]
      exact habs
    have h2 : mapFind? P2 CmdFrom = some [NewFromCommand 0 denv.fromValue] :=
      mapFind?_defStep_absent P1 CmdFrom _ h0
    apply mapFind?_defStep_some
    apply mapFind?_defStep_some
    apply mapFind?_defStep_some
    apply mapFind?_defStep_some
    exact h2
  · -- AUTHCONFIG
    have hs : (mapFind? P3 CmdAuthConfig).isSome := mapFind?_defStep_isSome P2 CmdAuthConfig _
    have hs6 : (mapFind? P6 CmdAuthConfig).isSome := by
      apply mapFind?_defStep_isSome_of
      apply mapFind?_defStep_isSome_of
      apply mapFind?_defStep_isSome_of
      exact hs
    refine ⟨countKey_one_of_nodup P6 CmdAuthConfig hn6 hs6, ?_⟩
    intro habs
    refine ⟨NewAuthConfigCommand 0 defaultAuthArgs, ?_⟩
    have h0 : mapFind? P2 CmdAuthConfig = none := by
      rw [mapFind?_defStep_ne P1 CmdFrom CmdAuthConfig _ (by decide)]
      rw [mapFind?_defStep_ne P0 CmdAs CmdAuthConfig _ (by decide)]
      exact habs
    have h3 : mapFind? P3 CmdAuthConfig = some [NewAuthConfigCommand 0 defaultAuthArgs] :=
      mapFind?_defStep_absent P2 CmdAuthConfig _ h0
    apply mapFind?_defStep_some
    apply mapFind?_defStep_some
    apply mapFind?_defStep_some
    exact h3
  · -- OUTPUT
    have hs : (mapFind? P5 CmdOutput).isSome := mapFind?_defStep_isSome P4 CmdOutput _
    have hs6 : (mapFind? P6 CmdOutput).isSome := by
      apply mapFind?_defStep_isSome_of
      exact hs
    refine ⟨countKey_one_of_nodup P6 CmdOutput hn6 hs6, ?_⟩
    intro habs
    refine ⟨NewOutputCommand 0 ("path:" ++ denv.outputValue), ?_⟩
    have h0 : mapFind? P4 CmdOutput = none := by
      rw [mapFind?_defStep_ne P3 CmdWorkDir CmdOutput _ (by decide)]
      rw [mapFind?_defStep_ne P2 CmdAuthConfig CmdOutput _ (by decide)]
      rw [mapFind?_defStep_ne P1 CmdFrom CmdOutput _ (by decide)]
      rw [mapFind?_defStep_ne P0 CmdAs CmdOutput _ (by decide)]
      exact habs
    have h5 : mapFind? P5 CmdOutput = some [NewOutputCommand 0 ("path:" ++ denv.outputValue)] :=
      mapFind?_defStep_absent P4 CmdOutput _ h0
    apply mapFind?_defStep_some
    exact h5
  · -- WORKDIR
    have hs : (mapFind? P4 CmdWorkDir).isSome := mapFind?_defStep_isSome P3 CmdWorkDir _
    have hs6 : (mapFind? P6 CmdWorkDir).isSome := by
      apply mapFind?_defStep_isSome_of
      apply mapFind?_defStep_isSome_of
      exact hs
    refine ⟨countKey_one_of_nodup P6 CmdWorkDir hn6 hs6, ?_⟩
    intro habs
    refine ⟨NewWorkdirCommand 0 ("path:" ++ denv.workdirValue), ?_⟩
    have h0 : mapFind? P3 CmdWorkDir = none := by
      rw [mapFind?_defStep_ne P2 CmdAuthConfig CmdWorkDir _ (by decide)]
      rw [mapFind?_defStep_ne P1 CmdFrom CmdWorkDir _ (by decide)]
      rw [mapFind?_defStep_ne P0 CmdAs CmdWorkDir _ (by decide)]
      exact habs
    have h4 : mapFind? P4 CmdWorkDir =
        some [NewWorkdirCommand 0 ("path:" ++ denv.workdirValue)] :=
      mapFind?_defStep_absent P3 CmdWorkDir _ h0
    apply mapFind?_defStep_some
    apply mapFind?_defStep_some
    exact h4
  · -- KUBECONFIG
    have hs6 : (mapFind? P6 CmdKubeConfig).isSome := mapFind?_defStep_isSome P5 CmdKubeConfig _
    refine ⟨countKey_one_of_nodup P6 CmdKubeConfig hn6 hs6, ?_⟩
    intro habs
    refine ⟨NewKubeConfigCommand 0 ("path:" ++ denv.kubeConfigValue), ?_⟩
    have h0 : mapFind? P5 CmdKubeConfig = none := by
      rw [mapFind?_defStep_ne P4 CmdOutput CmdKubeConfig _ (by decide)]
      rw [mapFind?_defStep_ne P3 CmdWorkDir CmdKubeConfig _ (by decide)]
      rw [mapFind?_defStep_ne P2 CmdAuthConfig CmdKubeConfig _ (by decide)]
      rw [mapFind?_defStep_ne P1 CmdFrom CmdKubeConfig _ (by decide)]
      rw [mapFind?_defStep_ne P0 CmdAs CmdKubeConfig _ (by decide)]
      exact habs
    exact mapFind?_defStep_absent P5 CmdKubeConfig _ h0

/-- C2 witness: a script holding only a WORKDIR preamble (so five
configuration directives are absent) ends up with exactly one entry for
each of the six after default resolution. -/
theorem c2_witness :
    countKey (enforceDefaults denvW
      { Preambles := [(CmdWorkDir, [Command.workdirCmd 1 "/tmp/x"])], Actions := [] }).Preambles
      CmdAs = 1 ∧
    countKey (enforceDefaults denvW
      { Preambles := [(CmdWorkDir, [Command.workdirCmd 1 "/tmp/x"])], Actions := [] }).Preambles
      CmdWorkDir = 1 := by
  have h := c2_defaults_fill_all_six denvW
    { Preambles := [(CmdWorkDir, [Command.workdirCmd 1 "/tmp/x"])], Actions := [] }
    (by unfold PreNodup; decide) ⟨CmdAs, by decide, by decide⟩
  exact ⟨(h CmdAs (by decide)).1, (h CmdWorkDir (by decide)).1⟩

/-! ## Occurrence bookkeeping lemmas for the parser invariant -/

theorem lastDirOcc_cons (d : String) (n : Nat) (t : String) (rest : List String) :
    lastDirOcc d n (t :: rest) =
      (match lastDirOcc d (n + 1) rest with
       | some r => some r
       | none =>
         match lineDirective t with
         | some (c, a) => if c = d then some (n, a) else none
         | none => none) := rfl

theorem lastDirOcc_cons_skip (d : String) (n : Nat) (t : String) (rest : List String)
    (h : lineDirective t = none) :
    lastDirOcc d n (t :: rest) = lastDirOcc d (n + 1) rest := by
  rw [lastDirOcc_cons, h]
  cases lastDirOcc d (n + 1) rest <;> rfl

theorem lastDirOcc_cons_dir (d : String) (n : Nat) (t : String) (rest : List String)
    (c a : String) (h : lineDirective t = some (c, a)) :
    lastDirOcc d n (t :: rest) =
      (match lastDirOcc d (n + 1) rest with
       | some r => some r
       | none => if c = d then some (n, a) else none) := by
  rw [lastDirOcc_cons, h]

theorem dirOccs_cons (d : String) (n : Nat) (t : String) (rest : List String) :
    dirOccs d n (t :: rest) =
      (match lineDirective t with
       | some (c, a) =>
         if c = d then (n, a) :: dirOccs d (n + 1) rest else dirOccs d (n + 1) rest
       | none => dirOccs d (n + 1) rest) := rfl

theorem dirOccs_cons_skip (d : String) (n : Nat) (t : String) (rest : List String)
    (h : lineDirective t = none) : dirOccs d n (t :: rest) = dirOccs d (n + 1) rest := by
  rw [dirOccs_cons, h]

theorem dirOccs_cons_dir (d : String) (n : Nat) (t : String) (rest : List String)
    (c a : String) (h : lineDirective t = some (c, a)) :
    dirOccs d n (t :: rest) =
      if c = d then (n, a) :: dirOccs d (n + 1) rest else dirOccs d (n + 1) rest := by
  rw [dirOccs_cons, h]

theorem actionOccs_cons (n : Nat) (t : String) (rest : List String) :
    actionOccs n (t :: rest) =
      (match lineDirective t with
       | some (c, a) =>
         if actionDirs.contains c then (c, n, a) :: actionOccs (n + 1) rest
         else actionOccs (n + 1) rest
       | none => actionOccs (n + 1) rest) := rfl

theorem actionOccs_cons_skip (n : Nat) (t : String) (rest : List String)
    (h : lineDirective t = none) : actionOccs n (t :: rest) = actionOccs (n + 1) rest := by
  rw [actionOccs_cons, h]

theorem actionOccs_cons_dir (n : Nat) (t : String) (rest : List String)
    (c a : String) (h : lineDirective t = some (c, a)) :
    actionOccs n (t :: rest) =
      if actionDirs.contains c then (c, n, a) :: actionOccs (n + 1) rest
      else actionOccs (n + 1) rest := by
  rw [actionOccs_cons, h]

theorem mem_singles_cases (d : String) (hd : d ∈ singlesDirs) :
    d = CmdAs ∨ d = CmdFrom ∨ d = CmdKubeConfig ∨ d = CmdAuthConfig ∨ d = CmdOutput ∨
      d = CmdWorkDir := by
  simpa [singlesDirs] using hd

theorem mem_actions_cases (c : String) (hc : c ∈ actionDirs) :
    c = CmdCapture ∨ c = CmdCopy ∨ c = CmdRun ∨ c = CmdKubeGet := by
  simpa [actionDirs] using hc

theorem singles_ne_env (d : String) (hd : d ∈ singlesDirs) : d ≠ CmdEnv := by
  rcases mem_singles_cases d hd with rfl | rfl | rfl | rfl | rfl | rfl <;> decide

theorem singles_not_action (d : String) (hd : d ∈ singlesDirs) :
    actionDirs.contains d = false := by
  rcases mem_singles_cases d hd with rfl | rfl | rfl | rfl | rfl | rfl <;> decide

theorem actions_ne_single (c d : String) (hc : c ∈ actionDirs) (hd : d ∈ singlesDirs) :
    c ≠ d := by
  rcases mem_actions_cases c hc with rfl | rfl | rfl | rfl <;>
    rcases mem_singles_cases d hd with rfl | rfl | rfl | rfl | rfl | rfl <;> decide

theorem actions_ne_env (c : String) (hc : c ∈ actionDirs) : c ≠ CmdEnv := by
  rcases mem_actions_cases c hc with rfl | rfl | rfl | rfl <;> decide

theorem actions_contains (c : String) (hc : c ∈ actionDirs) :
    actionDirs.contains c = true := by
  rcases mem_actions_cases c hc with rfl | rfl | rfl | rfl <;> decide

/-! ## The parser loop invariant (one lemma per directive shape) -/

theorem parseLoop_step_single
    (ds : String) (hmem : ds ∈ singlesDirs)
    (n : Nat) (t : String) (rest : List String) (scr out : Script) (a : String)
    (hld : lineDirective t = some (ds, a))
    (h1 : ∀ d ∈ singlesDirs, mapFind? out.Preambles d =
      (match lastDirOcc d (n + 1) rest with
       | some (m, b) => some [mkSingleCmd d m b]
       | none => mapFind? (mapSet scr.Preambles ds [mkSingleCmd ds n a]) d))
    (h2 : (mapFind? out.Preambles CmdEnv).getD [] =
      (mapFind? (mapSet scr.Preambles ds [mkSingleCmd ds n a]) CmdEnv).getD [] ++
        (dirOccs CmdEnv (n + 1) rest).map (fun p => NewEnvCommand p.1 p.2))
    (h3 : out.Actions = scr.Actions ++
      (actionOccs (n + 1) rest).map (fun tr => mkActionCmd tr.1 tr.2.1 tr.2.2)) :
    (∀ d ∈ singlesDirs, mapFind? out.Preambles d =
      (match lastDirOcc d n (t :: rest) with
       | some (m, b) => some [mkSingleCmd d m b]
       | none => mapFind? scr.Preambles d)) ∧
    (mapFind? out.Preambles CmdEnv).getD [] =
      (mapFind? scr.Preambles CmdEnv).getD [] ++
        (dirOccs CmdEnv n (t :: rest)).map (fun p => NewEnvCommand p.1 p.2) ∧
    out.Actions = scr.Actions ++
      (actionOccs n (t :: rest)).map (fun tr => mkActionCmd tr.1 tr.2.1 tr.2.2) := by
  have hne : ds ≠ CmdEnv := singles_ne_env ds hmem
  refine ⟨?_, ?_, ?_⟩
  · intro d hd
    rw [lastDirOcc_cons_dir d n t rest ds a hld]
    cases hrec : lastDirOcc d (n + 1) rest with
    | some r =>
      have hthis := h1 d hd
      rw [hrec] at hthis
      obtain ⟨m, b⟩ := r
      exact hthis
    | none =>
      have hthis := h1 d hd
      rw [hrec] at hthis
      by_cases hda : ds = d
      · subst hda
        rw [hthis, mapFind?_mapSet_same]
        simp
      · rw [hthis, mapFind?_mapSet_ne _ _ _ _ hda]
        simp [hda]
  · rw [dirOccs_cons_dir CmdEnv n t rest ds a hld, if_neg hne]
    rw [mapFind?_mapSet_ne _ _ _ _ hne] at h2
    exact h2
  · rw [actionOccs_cons_dir n t rest ds a hld, singles_not_action ds hmem]
    simpa using h3

theorem parseLoop_step_env
    (n : Nat) (t : String) (rest : List String) (scr out : Script) (a : String)
    (hld : lineDirective t = some (CmdEnv, a))
    (h1 : ∀ d ∈ singlesDirs, mapFind? out.Preambles d =
      (match lastDirOcc d (n + 1) rest with
       | some (m, b) => some [mkSingleCmd d m b]
       | none => mapFind? (mapSet scr.Preambles CmdEnv
           ((mapFind? scr.Preambles CmdEnv).getD [] ++ [NewEnvCommand n a])) d))
    (h2 : (mapFind? out.Preambles CmdEnv).getD [] =
      (mapFind? (mapSet scr.Preambles CmdEnv
          ((mapFind? scr.Preambles CmdEnv).getD [] ++ [NewEnvCommand n a])) CmdEnv).getD [] ++
        (dirOccs CmdEnv (n + 1) rest).map (fun p => NewEnvCommand p.1 p.2))
    (h3 : out.Actions = scr.Actions ++
      (actionOccs (n + 1) rest).map (fun tr => mkActionCmd tr.1 tr.2.1 tr.2.2)) :
    (∀ d ∈ singlesDirs, mapFind? out.Preambles d =
      (match lastDirOcc d n (t :: rest) with
       | some (m, b) => some [mkSingleCmd d m b]
       | none => mapFind? scr.Preambles d)) ∧
    (mapFind? out.Preambles CmdEnv).getD [] =
      (mapFind? scr.Preambles CmdEnv).getD [] ++
        (dirOccs CmdEnv n (t :: rest)).map (fun p => NewEnvCommand p.1 p.2) ∧
    out.Actions = scr.Actions ++
      (actionOccs n (t :: rest)).map (fun tr => mkActionCmd tr.1 tr.2.1 tr.2.2) := by
  refine ⟨?_, ?_, ?_⟩
  · intro d hd
    have hne : CmdEnv ≠ d := fun he => singles_ne_env d hd he.symm
    rw [lastDirOcc_cons_dir d n t rest CmdEnv a hld]
    cases hrec : lastDirOcc d (n + 1) rest with
    | some r =>
      have hthis := h1 d hd
      rw [hrec] at hthis
      obtain ⟨m, b⟩ := r
      exact hthis
    | none =>
      have hthis := h1 d hd
      rw [hrec] at hthis
      rw [hthis, mapFind?_mapSet_ne _ _ _ _ hne]
      simp [hne]
  · rw [dirOccs_cons_dir CmdEnv n t rest CmdEnv a hld, if_pos rfl]
    rw [mapFind?_mapSet_same] at h2
    rw [h2]
    simp
  · rw [actionOccs_cons_dir n t rest CmdEnv a hld]
    rw [show actionDirs.contains CmdEnv = false from by decide]
    simpa using h3

theorem parseLoop_step_action
    (ca : String) (hmem : ca ∈ actionDirs)
    (n : Nat) (t : String) (rest : List String) (scr out : Script) (a : String)
    (hld : lineDirective t = some (ca, a))
    (h1 : ∀ d ∈ singlesDirs, mapFind? out.Preambles d =
      (match lastDirOcc d (n + 1) rest with
       | some (m, b) => some [mkSingleCmd d m b]
       | none => mapFind? scr.Preambles d))
    (h2 : (mapFind? out.Preambles CmdEnv).getD [] =
      (mapFind? scr.Preambles CmdEnv).getD [] ++
        (dirOccs CmdEnv (n + 1) rest).map (fun p => NewEnvCommand p.1 p.2))
    (h3 : out.Actions = (scr.Actions ++ [mkActionCmd ca n a]) ++
      (actionOccs (n + 1) rest).map (fun tr => mkActionCmd tr.1 tr.2.1 tr.2.2)) :
    (∀ d ∈ singlesDirs, mapFind? out.Preambles d =
      (match lastDirOcc d n (t :: rest) with
       | some (m, b) => some [mkSingleCmd d m b]
       | none => mapFind? scr.Preambles d)) ∧
    (mapFind? out.Preambles CmdEnv).getD [] =
      (mapFind? scr.Preambles CmdEnv).getD [] ++
        (dirOccs CmdEnv n (t :: rest)).map (fun p => NewEnvCommand p.1 p.2) ∧
    out.Actions = scr.Actions ++
      (actionOccs n (t :: rest)).map (fun tr => mkActionCmd tr.1 tr.2.1 tr.2.2) := by
  refine ⟨?_, ?_, ?_⟩
  · intro d hd
    have hne : ca ≠ d := actions_ne_single ca d hmem hd
    rw [lastDirOcc_cons_dir d n t rest ca a hld]
    cases hrec : lastDirOcc d (n + 1) rest with
    | some r =>
      have hthis := h1 d hd
      rw [hrec] at hthis
      obtain ⟨m, b⟩ := r
      exact hthis
    | none =>
      have hthis := h1 d hd
      rw [hrec] at hthis
      rw [hthis]
      simp [hne]
  · rw [dirOccs_cons_dir CmdEnv n t rest ca a hld, if_neg (actions_ne_env ca hmem)]
    exact h2
  · rw [actionOccs_cons_dir n t rest ca a hld, actions_contains ca hmem]
    simpa using h3

/-- The invariant of `parseLoop`: relative to the accumulator script, each
single-value preamble directive ends at the command of its last occurrence,
ENV accumulates one command per occurrence in order, and actions append in
source order. -/
theorem parseLoop_inv :
    ∀ (lines : List String) (n : Nat) (scr out : Script),
      parseLoop n lines scr = .ok out →
      (∀ d ∈ singlesDirs, mapFind? out.Preambles d =
        (match lastDirOcc d n lines with
         | some (m, b) => some [mkSingleCmd d m b]
         | none => mapFind? scr.Preambles d)) ∧
      (mapFind? out.Preambles CmdEnv).getD [] =
        (mapFind? scr.Preambles CmdEnv).getD [] ++
          (dirOccs CmdEnv n lines).map (fun p => NewEnvCommand p.1 p.2) ∧
      out.Actions = scr.Actions ++
        (actionOccs n lines).map (fun tr => mkActionCmd tr.1 tr.2.1 tr.2.2) := by
  intro lines
  induction lines with
  | nil =>
    intro n scr out h
    simp only [parseLoop] at h
    injection h with h
    subst h
    refine ⟨?_, ?_, ?_⟩
    · intro d _
      rfl
    · simp [dirOccs]
    · simp [actionOccs]
  | cons t rest ih =>
    intro n scr out h
    simp only [parseLoop] at h
    cases hld : lineDirective t with
    | none =>
      simp only [hld] at h
      obtain ⟨h1, h2, h3⟩ := ih (n + 1) scr out h
      refine ⟨?_, ?_, ?_⟩
      · intro d hd
        rw [lastDirOcc_cons_skip d n t rest hld]
        exact h1 d hd
      · rw [dirOccs_cons_skip CmdEnv n t rest hld]
        exact h2
      · rw [actionOccs_cons_skip n t rest hld]
        exact h3
    | some p =>
      obtain ⟨c, a⟩ := p
      simp only [hld] at h
      by_cases hsup : CmdsSupported c = false
      · rw [if_pos hsup] at h
        simp at h
      · rw [if_neg hsup] at h
        have hsup' : CmdsSupported c = true := by
          revert hsup
          cases CmdsSupported c <;> simp
        have hcases : c = CmdAs ∨ c = CmdEnv ∨ c = CmdFrom ∨ c = CmdKubeConfig ∨
            c = CmdAuthConfig ∨ c = CmdOutput ∨ c = CmdWorkDir ∨ c = CmdCapture ∨
            c = CmdCopy ∨ c = CmdRun ∨ c = CmdKubeGet := by
          simpa [CmdsSupported, Bool.or_eq_true, beq_iff_eq, or_assoc] using hsup'
        rcases hcases with rfl | rfl | rfl | rfl | rfl | rfl | rfl | rfl | rfl | rfl | rfl
        · -- AS
          obtain ⟨h1, h2, h3⟩ := ih (n + 1)
            { scr with Preambles := mapSet scr.Preambles CmdAs [mkSingleCmd CmdAs n a] } out h
          exact parseLoop_step_single CmdAs (by simp [singlesDirs]) n t rest scr out a hld h1 h2 h3
        · -- ENV
          obtain ⟨h1, h2, h3⟩ := ih (n + 1)
            ⟨mapSet scr.Preambles CmdEnv
              ((mapFind? scr.Preambles CmdEnv).getD [] ++ [NewEnvCommand n a]), scr.Actions⟩ out h
          exact parseLoop_step_env n t rest scr out a hld h1 h2 h3
        · -- FROM
          obtain ⟨h1, h2, h3⟩ := ih (n + 1)
            { scr with Preambles := mapSet scr.Preambles CmdFrom [mkSingleCmd CmdFrom n a] } out h
          exact parseLoop_step_single CmdFrom (by simp [singlesDirs]) n t rest scr out a hld h1 h2 h3
        · -- KUBECONFIG
          obtain ⟨h1, h2, h3⟩ := ih (n + 1)
            ⟨mapSet scr.Preambles CmdKubeConfig [mkSingleCmd CmdKubeConfig n a], scr.Actions⟩ out h
          exact parseLoop_step_single CmdKubeConfig (by simp [singlesDirs]) n t rest scr out a hld
            h1 h2 h3
        · -- AUTHCONFIG
          obtain ⟨h1, h2, h3⟩ := ih (n + 1)
            ⟨mapSet scr.Preambles CmdAuthConfig [mkSingleCmd CmdAuthConfig n a], scr.Actions⟩ out h
          exact parseLoop_step_single CmdAuthConfig (by simp [singlesDirs]) n t rest scr out a hld
            h1 h2 h3
        · -- OUTPUT
          obtain ⟨h1, h2, h3⟩ := ih (n + 1)
            ⟨mapSet scr.Preambles CmdOutput [mkSingleCmd CmdOutput n a], scr.Actions⟩ out h
          exact parseLoop_step_single CmdOutput (by simp [singlesDirs]) n t rest scr out a hld
            h1 h2 h3
        · -- WORKDIR
          obtain ⟨h1, h2, h3⟩ := ih (n + 1)
            ⟨mapSet scr.Preambles CmdWorkDir [mkSingleCmd CmdWorkDir n a], scr.Actions⟩ out h
          exact parseLoop_step_single CmdWorkDir (by simp [singlesDirs]) n t rest scr out a hld
            h1 h2 h3
        · -- CAPTURE
          obtain ⟨h1, h2, h3⟩ := ih (n + 1)
            { scr with Actions := scr.Actions ++ [mkActionCmd CmdCapture n a] } out h
          exact parseLoop_step_action CmdCapture (by simp [actionDirs]) n t rest scr out a hld
            h1 h2 h3
        · -- COPY
          obtain ⟨h1, h2, h3⟩ := ih (n + 1)
            { scr with Actions := scr.Actions ++ [mkActionCmd CmdCopy n a] } out h
          exact parseLoop_step_action CmdCopy (by simp [actionDirs]) n t rest scr out a hld h1 h2 h3
        · -- RUN
          obtain ⟨h1, h2, h3⟩ := ih (n + 1)
            { scr with Actions := scr.Actions ++ [mkActionCmd CmdRun n a] } out h
          exact parseLoop_step_action CmdRun (by simp [actionDirs]) n t rest scr out a hld h1 h2 h3
        · -- KUBEGET
          obtain ⟨h1, h2, h3⟩ := ih (n + 1)
            { scr with Actions := scr.Actions ++ [mkActionCmd CmdKubeGet n a] } out h
          exact parseLoop_step_action CmdKubeGet (by simp [actionDirs]) n t rest scr out a hld
            h1 h2 h3

/-- C3: for every successfully parsed script, each single-value preamble
directive (AS, FROM, AUTHCONFIG, OUTPUT, WORKDIR, KUBECONFIG) holds only
the command built from its last occurrence; the ENV preamble list is the
accumulation of every ENV occurrence in order; and the Actions sequence is
exactly the action directives (CAPTURE, COPY, RUN, KUBEGET) in source-line
order. -/
theorem c3_last_wins_env_accumulates_actions_append
    (denv : DefaultsEnv) (lines : List String) (s : Script)
    (h : Parse denv lines = .ok s) :
    (∀ d ∈ singlesDirs, ∀ m a, lastDirOcc d 1 lines = some (m, a) →
      mapFind? s.Preambles d = some [mkSingleCmd d m a]) ∧
    (mapFind? s.Preambles CmdEnv).getD [] =
      (dirOccs CmdEnv 1 lines).map (fun p => NewEnvCommand p.1 p.2) ∧
    s.Actions = (actionOccs 1 lines).map (fun tr => mkActionCmd tr.1 tr.2.1 tr.2.2) := by
  unfold Parse at h
  cases hp : parseLoop 1 lines { Preambles := [], Actions := [] } with
  | error e =>
    rw [hp] at h
    simp at h
  | ok scr =>
    rw [hp] at h
    injection h with h
    subst h
    obtain ⟨h1, h2, h3⟩ := parseLoop_inv lines 1 { Preambles := [], Actions := [] } scr hp
    refine ⟨?_, ?_, ?_⟩
    · intro d hd m a hocc
      have hthis := h1 d hd
      rw [hocc] at hthis
      rw [enforceDefaults_Preambles]
      apply mapFind?_defStep_some
      apply mapFind?_defStep_some
      apply mapFind?_defStep_some
      apply mapFind?_defStep_some
      apply mapFind?_defStep_some
      apply mapFind?_defStep_some
      exact hthis
    · have hENV : mapFind? (enforceDefaults denv scr).Preambles CmdEnv =
          mapFind? scr.Preambles CmdEnv := by
        rw [enforceDefaults_Preambles]
        rw [mapFind?_defStep_ne _ _ _ _ (show CmdKubeConfig ≠ CmdEnv from by decide)]
        rw [mapFind?_defStep_ne _ _ _ _ (show CmdOutput ≠ CmdEnv from by decide)]
        rw [mapFind?_defStep_ne _ _ _ _ (show CmdWorkDir ≠ CmdEnv from by decide)]
        rw [mapFind?_defStep_ne _ _ _ _ (show CmdAuthConfig ≠ CmdEnv from by decide)]
        rw [mapFind?_defStep_ne _ _ _ _ (show CmdFrom ≠ CmdEnv from by decide)]
        rw [mapFind?_defStep_ne _ _ _ _ (show CmdAs ≠ CmdEnv from by decide)]
      rw [hENV, h2]
      simp [mapFind?]
    · have hAct : (enforceDefaults denv scr).Actions = scr.Actions := rfl
      rw [hAct, h3]
      simp

/-- C3 witness: in `linesW` the second AS wins, both ENV occurrences
accumulate in order, and the COPY and CAPTURE actions appear in source
order. -/
theorem c3_witness :
    mapFind? sW.Preambles CmdAs = some [mkSingleCmd CmdAs 2 "c:d"] ∧
    (mapFind? sW.Preambles CmdEnv).getD [] = [NewEnvCommand 3 "X=1", NewEnvCommand 5 "Y=2"] ∧
    sW.Actions = [mkActionCmd CmdCopy 6 "/a", mkActionCmd CmdCapture 7 "ls"] := by
  have h := c3_last_wins_env_accumulates_actions_append denvW linesW sW (by rfl)
  refine ⟨h.1 CmdAs (by decide) 2 "c:d" (by decide), ?_, ?_⟩
  · rw [h.2.1]
    decide
  · rw [h.2.2]
    decide

/-- C9: the parser processes lines sequentially and stops at the first
error with no partial recovery — a skipped line (blank, or first
non-whitespace byte `#`) advances only the line counter; a non-skipped
line whose directive is unsupported makes the loop return, for every
possible remainder of the input, the error carrying the 1-based line
number and the directive name, so no later line contributes anything; at
the top level the count starts at 1. -/
theorem c9_parse_stops_at_first_error :
    (∀ (n : Nat) (rest : List String) (scr : Script) (text : String),
      trimChars text = "" ∨ (trimChars text).toList.head? = some '#' →
      parseLoop n (text :: rest) scr = parseLoop (n + 1) rest scr) ∧
    (∀ (n : Nat) (rest : List String) (scr : Script) (text cn ra : String),
      lineDirective text = some (cn, ra) → CmdsSupported cn = false →
      parseLoop n (text :: rest) scr =
        .error ("line " ++ toString n ++ ": " ++ cn ++ " unsupported")) ∧
    (∀ (denv : DefaultsEnv) (rest : List String) (text cn ra : String),
      lineDirective text = some (cn, ra) → CmdsSupported cn = false →
      Parse denv (text :: rest) =
        .error ("line " ++ toString 1 ++ ": " ++ cn ++ " unsupported")) := by
  have hskip : ∀ (text : String),
      trimChars text = "" ∨ (trimChars text).toList.head? = some '#' →
      lineDirective text = none := by
    intro text h
    rcases h with h | h
    · have hd : (trimChars text).data = [] := by rw [h]
      simp [lineDirective, hd]
    · rcases hl : (trimChars text).toList with _ | ⟨c0, tl⟩
      · rw [hl] at h
        simp at h
      · have hd : (trimChars text).data = c0 :: tl := hl
        rw [hl] at h
        simp only [List.head?, Option.some_inj] at h
        simp [lineDirective, hd, h]
  have herr : ∀ (n : Nat) (rest : List String) (scr : Script) (text cn ra : String),
      lineDirective text = some (cn, ra) → CmdsSupported cn = false →
      parseLoop n (text :: rest) scr =
        .error ("line " ++ toString n ++ ": " ++ cn ++ " unsupported") := by
    intro n rest scr text cn ra hld hsup
    simp [parseLoop, hld, hsup, unsupportedMsg]
  refine ⟨?_, herr, ?_⟩
  · intro n rest scr text h
    simp [parseLoop, hskip text h]
  · intro denv rest text cn ra hld hsup
    simp [Parse, herr 1 rest { Preambles := [], Actions := [] } text cn ra hld hsup]

/-- C9 witness: a comment line is skipped while the counter advances; the
unsupported directive `BOGUS` on (1-based) line 2 of the loop, and on line
1 of a fresh parse, stops parsing with the line-numbered error whatever
lines follow. -/
theorem c9_witness :
    parseLoop 3 ("# note" :: ["CAPTURE ls"]) emptyScr = parseLoop 4 ["CAPTURE ls"] emptyScr ∧
    parseLoop 2 ("BOGUS x" :: ["CAPTURE ls"]) emptyScr =
      .error ("line " ++ toString 2 ++ ": " ++ "BOGUS" ++ " unsupported") ∧
    Parse denvW ("BOGUS x" :: ["CAPTURE ls"]) =
      .error ("line " ++ toString 1 ++ ": " ++ "BOGUS" ++ " unsupported") :=
  ⟨c9_parse_stops_at_first_error.1 3 ["CAPTURE ls"] emptyScr "# note" (Or.inr (by decide)),
    c9_parse_stops_at_first_error.2.1 2 ["CAPTURE ls"] emptyScr "BOGUS x" "BOGUS" "x"
      (by decide) (by decide),
    c9_parse_stops_at_first_error.2.2 denvW ["CAPTURE ls"] "BOGUS x" "BOGUS" "x"
      (by decide) (by decide)⟩

/-- C10 witness: concrete scripts exercising the three behaviours — absent
FROM gives the missing-directive error, FROM mapped to an empty list
panics on the index, and FROM mapped to a workdir command panics on the
type assertion. -/
theorem c10_witness :
    Execute envOkW emptyScr = ⟨[], .error ("Script missing valid " ++ CmdFrom)⟩ ∧
    Execute envOkW { Preambles := [(CmdFrom, [])], Actions := [] } =
      ⟨[], .panicked indexPanicMsg⟩ ∧
    Execute envOkW { Preambles := [(CmdFrom, [Command.workdirCmd 0 "/tmp/w"])], Actions := [] } =
      ⟨[], .panicked castPanicMsg⟩ ∧
    Execute envOkW ⟨[(CmdFrom, [Command.fromCmd 0 ["local"]]), (CmdAs, [])], []⟩ =
      ⟨[], .panicked indexPanicMsg⟩ :=
  ⟨c10_precheck_tests_key_presence_only.1 envOkW emptyScr rfl,
    c10_precheck_tests_key_presence_only.2.1 envOkW _ rfl,
    c10_precheck_tests_key_presence_only.2.2.1 envOkW _ (Command.workdirCmd 0 "/tmp/w") [] rfl rfl,
    (c10_precheck_tests_key_presence_only.2.2.2.2.1) envOkW _ 0 ["local"] [] rfl rfl⟩

end Flare
